import Mathlib

/-!
# Verification of the jlox-rs tree-walking interpreter

A shallow embedding of the core of the `jlox-rs` repository:

* the lexical scanner (`src/scanner.rs`),
* the recursive-descent parser (`src/parser/mod.rs`, `src/parser/ast.rs`),
* the static name resolver (`src/resolver/resolver.rs`, `src/resolver/environment.rs`),
* the resolved-AST tree-walking evaluator (`src/r_interpreter/tree_walker.rs`,
  `src/r_interpreter/lox_callable.rs`, `src/r_interpreter/lox_value.rs`).

Modelling conventions:

* Rust `f64` numbers are modelled as exact (unnormalised) rationals `LoxNum`;
  every numeric value the theorems below touch is exactly representable in
  `f64`, so the exact model and the floating-point code agree on them.
  Rounding, infinities and NaN are not modelled.
* `Rc<RefCell<LoxValue>>` cells are modelled as addresses into an explicit
  heap, so that cell sharing between closures and binding stores is literal.
* Rust panics (`unwrap` / `expect` failures) are modelled as a distinguished
  `bug` error value; fallible operations return `Option` / `Except`.
* Recursion that is bounded only by the Rust call stack is modelled with an
  explicit fuel parameter; running out of fuel produces a distinguished
  outcome that the theorems treat separately from the program's own results.
-/

/-- Exact rational stand-in for the Rust `f64` runtime numbers.
The pair is kept unnormalised (`den` is positive by construction); value
equality and order are decided by cross-multiplication, matching `f64`
value semantics on all exactly-representable inputs. -/
structure LoxNum where
  num : Int
  den : Int
deriving DecidableEq, Repr

/-- Integer literal embedding. -/
def LoxNum.ofInt (n : Int) : LoxNum := ⟨n, 1⟩

/-- Model of `f64` addition (`l + r`). -/
def LoxNum.add (a b : LoxNum) : LoxNum :=
  ⟨a.num * b.den + b.num * a.den, a.den * b.den⟩

/-- Model of `f64` subtraction (`l - r`). -/
def LoxNum.sub (a b : LoxNum) : LoxNum :=
  ⟨a.num * b.den - b.num * a.den, a.den * b.den⟩

/-- Model of `f64` multiplication (`l * r`). -/
def LoxNum.mul (a b : LoxNum) : LoxNum := ⟨a.num * b.num, a.den * b.den⟩

/-- Model of `f64` division (`l / r`); the sign is moved to the numerator to
keep the denominator nonnegative. Division by zero is outside the model. -/
def LoxNum.div (a b : LoxNum) : LoxNum :=
  if b.num < 0 then ⟨-(a.num * b.den), -(a.den * b.num)⟩
  else ⟨a.num * b.den, a.den * b.num⟩

/-- Model of `f64` negation (unary `-`). -/
def LoxNum.neg (a : LoxNum) : LoxNum := ⟨-a.num, a.den⟩

/-- Model of `f64` value equality (`l == r`). -/
def LoxNum.valEq (a b : LoxNum) : Bool := a.num * b.den == b.num * a.den

/-- Model of `f64` strict order (`l < r`); valid because denominators are
positive by construction. -/
def LoxNum.ltb (a b : LoxNum) : Bool := decide (a.num * b.den < b.num * a.den)

/-- Model of `f64` order (`l <= r`). -/
def LoxNum.leb (a b : LoxNum) : Bool := decide (a.num * b.den ≤ b.num * a.den)

/-- Model of the `Display` implementation of `f64` on the values reached by
the theorems below (integral values print with no fractional part). -/
def LoxNum.display (a : LoxNum) : String :=
  if a.num % a.den == 0 then toString (a.num / a.den)
  else toString a.num ++ "/" ++ toString a.den

/-- Digit run to natural number. -/
def digitsToNat (ds : List Char) : Nat :=
  ds.foldl (fun acc c => acc * 10 + (c.toNat - 48)) 0

/-- Model of `f64::from_str` (`src/scanner.rs`, the `Scanner::scan_token`
number arm) restricted to the numeral lexemes the scanner produces:
one or more digits optionally followed by `.` and one or more digits. -/
def numParse (s : String) : Option LoxNum :=
  let cs := s.toList
  let ip := cs.takeWhile Char.isDigit
  let rest := cs.dropWhile Char.isDigit
  if ip.isEmpty then none
  else
    match rest with
    | [] => some ⟨Int.ofNat (digitsToNat ip), 1⟩
    | '.' :: fr =>
        if !fr.isEmpty && fr.all Char.isDigit then
          some ⟨Int.ofNat (digitsToNat ip * 10 ^ fr.length + digitsToNat fr),
                Int.ofNat (10 ^ fr.length)⟩
        else none
    | _ => none

/-- `TokenType` from `src/scanner.rs` (keyword variants are prefixed with
`kw` where the Rust name is a Lean keyword; the prefix is applied uniformly). -/
inductive TokenType
| leftParen | rightParen | leftBrace | rightBrace | comma | dot
| minus | plus | semicolon | slash | star
| bang | bangEqual | equal | equalEqual
| greater | greaterEqual | less | lessEqual
| identifier | string | number
| kwAnd | kwClass | kwElse | kwFalse | kwFun | kwFor | kwIf | kwNil
| kwOr | kwPrint | kwReturn | kwSuper | kwThis | kwTrue | kwVar | kwWhile
| trivia
| syntaxError (errorMsg : Option String)
deriving DecidableEq

/-- Payload-free discriminant of `TokenType`, as produced by the derived
`TokenDiscriminant` enum the parser and evaluators match on. -/
inductive TokenDiscriminant
| leftParen | rightParen | leftBrace | rightBrace | comma | dot
| minus | plus | semicolon | slash | star
| bang | bangEqual | equal | equalEqual
| greater | greaterEqual | less | lessEqual
| identifier | string | number
| kwAnd | kwClass | kwElse | kwFalse | kwFun | kwFor | kwIf | kwNil
| kwOr | kwPrint | kwReturn | kwSuper | kwThis | kwTrue | kwVar | kwWhile
| trivia
| syntaxError
deriving DecidableEq

/-- Discriminant of a `TokenType` (drops the `SyntaxError` payload). -/
def TokenType.discriminant : TokenType → TokenDiscriminant
| .leftParen => .leftParen
| .rightParen => .rightParen
| .leftBrace => .leftBrace
| .rightBrace => .rightBrace
| .comma => .comma
| .dot => .dot
| .minus => .minus
| .plus => .plus
| .semicolon => .semicolon
| .slash => .slash
| .star => .star
| .bang => .bang
| .bangEqual => .bangEqual
| .equal => .equal
| .equalEqual => .equalEqual
| .greater => .greater
| .greaterEqual => .greaterEqual
| .less => .less
| .lessEqual => .lessEqual
| .identifier => .identifier
| .string => .string
| .number => .number
| .kwAnd => .kwAnd
| .kwClass => .kwClass
| .kwElse => .kwElse
| .kwFalse => .kwFalse
| .kwFun => .kwFun
| .kwFor => .kwFor
| .kwIf => .kwIf
| .kwNil => .kwNil
| .kwOr => .kwOr
| .kwPrint => .kwPrint
| .kwReturn => .kwReturn
| .kwSuper => .kwSuper
| .kwThis => .kwThis
| .kwTrue => .kwTrue
| .kwVar => .kwVar
| .kwWhile => .kwWhile
| .trivia => .trivia
| .syntaxError _ => .syntaxError

/-- The scanner's `Literal` payload (a string or a number). -/
inductive TokLiteral
| str (s : String)
| num (q : LoxNum)
deriving DecidableEq

/-- `Token` from `src/scanner.rs`. -/
structure Token where
  ty : TokenType
  lexeme : String
  literal : Option TokLiteral
  line : Nat
deriving DecidableEq

/-- `Token::discriminant`. -/
def Token.discriminant (t : Token) : TokenDiscriminant := t.ty.discriminant

/-- Reads the token's number payload (models `token.ty().number()` as used by
the evaluators on number-literal tokens). -/
def Token.numberLit (t : Token) : Option LoxNum :=
  match t.literal with
  | some (.num q) => some q
  | _ => none

/-- Reads the token's string payload (models `token.ty().string()`). -/
def Token.stringLit (t : Token) : Option String :=
  match t.literal with
  | some (.str s) => some s
  | _ => none

/-- `Scanner::is_trivia`. -/
def isTriviaChar (c : Char) : Bool := c = ' ' || c = '\r' || c = '\t' || c = '\n'

/-- `Scanner::is_alpha` (ASCII alphanumeric or underscore). -/
def isAlphaChar (c : Char) : Bool := c.isAlphanum || c = '_'

/-- Number of newline characters in a consumed run (the scanner's line
counter increments once per `\n` seen by `advance`). -/
def countNewlines (cs : List Char) : Nat := cs.countP (fun ch => ch == '\n')

/-- `str::trim_matches` for a single pattern character. -/
def trimMatches (c : Char) (s : List Char) : List Char :=
  ((s.dropWhile (fun ch => ch == c)).reverse.dropWhile (fun ch => ch == c)).reverse

/-- The scanner's keyword table. -/
def keywordTable : List (String × TokenType) :=
  [("and", .kwAnd), ("class", .kwClass), ("else", .kwElse), ("false", .kwFalse),
   ("for", .kwFor), ("fun", .kwFun), ("if", .kwIf), ("nil", .kwNil),
   ("or", .kwOr), ("print", .kwPrint), ("return", .kwReturn), ("super", .kwSuper),
   ("this", .kwThis), ("true", .kwTrue), ("var", .kwVar), ("while", .kwWhile)]

/-- The word-finalising step of `Scanner::scan_token`: the consumed lexeme
is matched against the keyword table, unmatched lexemes become `Identifier`
tokens. -/
def mkWordToken (lexeme : String) (line : Nat) : Token :=
  match keywordTable.lookup lexeme with
  | some ty => { ty := ty, lexeme := lexeme, literal := none, line := line }
  | none => { ty := .identifier, lexeme := lexeme, literal := none, line := line }

/-- The number-finalising step of `Scanner::scan_token`: the consumed lexeme
is handed to `f64::from_str`; success yields a `Number` token whose literal
payload is the parse result, failure a syntax-error token. -/
def mkNumberToken (lexeme : String) (line : Nat) : Token :=
  match numParse lexeme with
  | some q => { ty := .number, lexeme := lexeme, literal := some (.num q), line := line }
  | none => { ty := .syntaxError (some "Failed to parse number"), lexeme := lexeme,
              literal := none, line := line }

/-- The single-character finalisation of `Scanner::scan_token`
(`finalize_current_token` on a one-character buffer). -/
def singleTok (c : Char) (rest : List Char) (line : Nat) (ty : TokenType) :
    Option (Token × List Char × Nat) :=
  some ({ ty := ty, lexeme := String.mk [c], literal := none, line := line }, rest, line)

/-- The greedy one-character-lookahead arms of `Scanner::scan_token`
(`!`/`!=`, `=`/`==`, `<`/`<=`, `>`/`>=`). -/
def twoCharTok (c : Char) (rest : List Char) (line : Nat) (c2 : Char)
    (tyTwo tyOne : TokenType) : Option (Token × List Char × Nat) :=
  match rest with
  | d :: rest2 =>
      if d = c2 then
        some ({ ty := tyTwo, lexeme := String.mk [c, c2], literal := none, line := line },
              rest2, line)
      else singleTok c rest line tyOne
  | [] => singleTok c rest line tyOne

/-- The string-literal arm of `Scanner::scan_token`: consume to the closing
quote; reaching end of input first yields the unterminated-string error
token; the literal payload is the lexeme with the quotes trimmed. -/
def scanStringTok (c : Char) (rest : List Char) (line : Nat) :
    Option (Token × List Char × Nat) :=
  let content := rest.takeWhile (fun ch => ch != '"')
  let rest1 := rest.dropWhile (fun ch => ch != '"')
  let line1 := line + countNewlines content
  match rest1 with
  | [] =>
      some ({ ty := .syntaxError (some "Unterminated string"),
              lexeme := String.mk (c :: content), literal := none, line := line1 }, [], line1)
  | _ :: rest2 =>
      let lexChars := c :: content ++ ['"']
      some ({ ty := .string, lexeme := String.mk lexChars,
              literal := some (.str (String.mk (trimMatches '"' lexChars))),
              line := line1 }, rest2, line1)

/-- The numeral arm of `Scanner::scan_token`: one or more digits, then `.`
followed by one or more digits only when a digit actually follows the `.`
(two-character lookahead via `peek_nth`). -/
def scanNumberTok (c : Char) (rest : List Char) (line : Nat) :
    Option (Token × List Char × Nat) :=
  let ip := rest.takeWhile Char.isDigit
  let rest1 := rest.dropWhile Char.isDigit
  let consumed :=
    match rest1 with
    | '.' :: d :: _ =>
        if d.isDigit then
          (c :: ip ++ '.' :: rest1.tail.takeWhile Char.isDigit,
           rest1.tail.dropWhile Char.isDigit)
        else (c :: ip, rest1)
    | _ => (c :: ip, rest1)
  some (mkNumberToken (String.mk consumed.1) line, consumed.2, line)

/-- The identifier/keyword arm of `Scanner::scan_token`. -/
def scanWordTok (c : Char) (rest : List Char) (line : Nat) :
    Option (Token × List Char × Nat) :=
  let taken := rest.takeWhile (fun ch => isAlphaChar ch || ch.isDigit)
  let rest2 := rest.dropWhile (fun ch => isAlphaChar ch || ch.isDigit)
  some (mkWordToken (String.mk (c :: taken)) line, rest2, line)

/-- The trivia arm of `Scanner::scan_token`: a maximal whitespace run
collapses into a single Trivia token; newlines bump the line counter. -/
def scanTriviaTok (c : Char) (rest : List Char) (line : Nat) :
    Option (Token × List Char × Nat) :=
  let taken := rest.takeWhile isTriviaChar
  let rest2 := rest.dropWhile isTriviaChar
  let line2 := line + countNewlines taken
  some ({ ty := .trivia, lexeme := String.mk (c :: taken), literal := none, line := line2 },
        rest2, line2)

/-- The line-counter bump `advance` performs for one consumed character. -/
def bumpLine (c : Char) (line : Nat) : Nat := if c = '\n' then line + 1 else line

/-- Every arm of `Scanner::scan_token` except the line-comment arm (the only
self-recursive one). The arms test mutually exclusive conditions, so
dispatching the slash arm separately in `scanToken` preserves the source's
dispatch order. -/
def scanSimpleTok (c : Char) (rest : List Char) (line : Nat) :
    Option (Token × List Char × Nat) :=
  if c = '(' then singleTok c rest line .leftParen
  else if c = ')' then singleTok c rest line .rightParen
  else if c = '{' then singleTok c rest line .leftBrace
  else if c = '}' then singleTok c rest line .rightBrace
  else if c = ',' then singleTok c rest line .comma
  else if c = '.' then singleTok c rest line .dot
  else if c = '-' then singleTok c rest line .minus
  else if c = '+' then singleTok c rest line .plus
  else if c = ';' then singleTok c rest line .semicolon
  else if c = '*' then singleTok c rest line .star
  else if c = '!' then twoCharTok c rest line '=' .bangEqual .bang
  else if c = '=' then twoCharTok c rest line '=' .equalEqual .equal
  else if c = '<' then twoCharTok c rest line '=' .lessEqual .less
  else if c = '>' then twoCharTok c rest line '=' .greaterEqual .greater
  else if c = '"' then scanStringTok c rest line
  else if c.isDigit then scanNumberTok c rest line
  else if isAlphaChar c then scanWordTok c rest line
  else if isTriviaChar c then scanTriviaTok c rest line
  else singleTok c rest line (.syntaxError none)

/-- `Scanner::scan_token` (`src/scanner.rs`): consume one token from the
character stream, returning the token, the remaining characters and the
updated line counter; `none` at end of input. The fuel parameter only feeds
the self-recursion of the line-comment arm (which consumes at least the two
slash characters per step, so any fuel at least the input length suffices). -/
def scanToken : Nat → List Char → Nat → Option (Token × List Char × Nat)
| 0, _, _ => none
| _ + 1, [], _ => none
| fuel + 1, c :: rest, line0 =>
  if c = '/' then
    match rest with
    | '/' :: rest2 =>
        -- line comment: consume through (not including) the next newline,
        -- clear the buffer and scan the next token
        scanToken fuel (rest2.dropWhile (fun ch => ch != '\n')) (bumpLine c line0)
    | _ => singleTok c rest (bumpLine c line0) .slash
  else scanSimpleTok c rest (bumpLine c line0)

/-- Repeatedly scan tokens until the end of input (the scanner is an
`Iterator` over tokens). -/
def scanList : Nat → List Char → Nat → List Token
| 0, _, _ => []
| fuel + 1, cs, line =>
  match scanToken (fuel + 1) cs line with
  | none => []
  | some (t, rest, line') => t :: scanList fuel rest line'

/-- Scan a whole source string from line 0 (`Scanner::new` + iteration). -/
def scanSource (s : String) : List Token :=
  scanList (s.length + 1) s.toList 0

/-!
## Unresolved AST (`src/parser/ast.rs`)

The checked-in `ast.rs` snapshot lags the rest of the crate: `parser/mod.rs`
constructs `Statement::FunctionDeclaration` and `Expression::Call` nodes and
builds Boolean literals from plain `bool`s, and `resolver/resolver.rs`
additionally consumes `Statement::Return` nodes. The embedding therefore
uses the union of the variants defined in `ast.rs` and the ones the parser
and resolver use.
-/

mutual

inductive UStatement
| exprStmt (e : UExpression)
| printStmt (e : UExpression)
| varDecl (initializer : Option UExpression) (identifier : Token)
| funDecl (name : Token) (parameters : List Token) (body : List UStatement)
| blockStmt (statements : List UStatement)
| ifElse (condition : UExpression) (ifBranch : UStatement) (elseBranch : Option UStatement)
| whileStmt (condition : UExpression) (body : UStatement)
| retStmt (keyword : Token) (value : UExpression)

inductive UExpression
| binary (left : UExpression) (operator : Token) (right : UExpression)
| unary (operator : Token) (operand : UExpression)
| literal (l : ULiteral)
| grouping (e : UExpression)
| varRef (identifier : Token)
| varAssign (identifier : Token) (value : UExpression)
| call (callee : UExpression) (closingParenthesis : Token) (arguments : List UExpression)

inductive ULiteral
| boolean (b : Bool)
| nullLit (t : Token)
| strLit (t : Token)
| numLit (t : Token)

end

/-- `ParsingMode` from `src/parser/mod.rs`. -/
inductive ParsingMode
| normal
| errorRecovery
deriving DecidableEq

/-- The parser's state: the (trivia-filtered) token stream plus the parsing
mode. A peekable iterator over a pure list is the list itself. -/
structure PState where
  tokens : List Token
  mode : ParsingMode

/-- `Parser::advance`: consume the next token unless in error-recovery mode. -/
def PState.advance (s : PState) : Option Token × PState :=
  match s.mode with
  | .normal => (s.tokens.head?, { s with tokens := s.tokens.tail })
  | .errorRecovery => (none, s)

/-- `Parser::peek` (mode-guarded). -/
def PState.peek (s : PState) : Option Token :=
  match s.mode with
  | .normal => s.tokens.head?
  | .errorRecovery => none

/-- `Parser::is_at_end` (peeks the raw stream). -/
def PState.isAtEnd (s : PState) : Bool := s.tokens.isEmpty

/-- `Parser::advance_on_match`: peeks the raw stream and consumes through
`advance` (hence consumes nothing in error-recovery mode) when the upcoming
discriminant is in the given set. -/
def PState.advanceOnMatch (s : PState) (ds : List TokenDiscriminant) : Option Token × PState :=
  match s.tokens.head? with
  | none => (none, s)
  | some t => if ds.contains t.discriminant then s.advance else (none, s)

/-- `Parser::expect`: single-discriminant `advance_on_match`, switching to
error-recovery mode on failure. -/
def PState.expect (s : PState) (d : TokenDiscriminant) : Option Token × PState :=
  match s.advanceOnMatch [d] with
  | (none, s') => (none, { s' with mode := .errorRecovery })
  | r => r

/-- `Parser::advance_until_recovery_point`: discard tokens until a semicolon
was just consumed or a statement-starting token is upcoming (raw stream). -/
def advanceUntilRecoveryPoint : List Token → List Token
| [] => []
| t :: rest =>
  if t.discriminant = TokenDiscriminant.semicolon then rest
  else
    match rest.head? with
    | none => []
    | some up =>
        if [TokenDiscriminant.kwClass, TokenDiscriminant.kwFun, TokenDiscriminant.kwVar,
            TokenDiscriminant.kwFor, TokenDiscriminant.kwIf, TokenDiscriminant.kwPrint,
            TokenDiscriminant.kwReturn, TokenDiscriminant.kwWhile].contains up.discriminant
        then rest
        else advanceUntilRecoveryPoint rest

mutual

/-- `Parser::declaration`. -/
def pDeclaration : Nat → PState → Option UStatement × PState
| 0, s => (none, s)
| fuel + 1, s =>
  match s.advanceOnMatch [.kwFun] with
  | (some _, s) => pFunction fuel s
  | (none, s) =>
  match s.advanceOnMatch [.kwVar] with
  | (some _, s) =>
      (match s.expect .identifier with
      | (none, s) => (none, s)
      | (some ident, s) =>
        match s.advanceOnMatch [.equal] with
        | (some _, s) =>
            (match pExpression fuel s with
            | (none, s) => (none, s)
            | (some init, s) =>
                match s.expect .semicolon with
                | (none, s) => (none, s)
                | (some _, s) => (some (.varDecl (some init) ident), s))
        | (none, s) =>
            match s.expect .semicolon with
            | (none, s) => (none, s)
            | (some _, s) => (some (.varDecl none ident), s))
  | (none, s) => pStatement fuel s

/-- `Parser::function` (the produced `FunctionDeclarationStatement` is
returned already wrapped as a statement). -/
def pFunction : Nat → PState → Option UStatement × PState
| 0, s => (none, s)
| fuel + 1, s =>
  match s.expect .identifier with
  | (none, s) => (none, s)
  | (some name, s) =>
  match s.expect .leftParen with
  | (none, s) => (none, s)
  | (some _, s) =>
  match s.peek with
  | none => (none, s)
  | some t =>
  match (if t.discriminant ≠ TokenDiscriminant.rightParen
         then pParamsLoop fuel [] s else (some [], s)) with
  | (none, s) => (none, s)
  | (some params, s) =>
  match s.expect .rightParen with
  | (none, s) => (none, s)
  | (some _, s) =>
  -- "You can't have more than 255 arguments" is printed and `None` returned
  -- when the parameter count reaches 255
  if params.length ≥ 255 then (none, s)
  else
  match s.expect .leftBrace with
  | (none, s) => (none, s)
  | (some _, s) =>
  match pBlockStatement fuel s with
  | (none, s) => (none, s)
  | (some body, s) => (some (.funDecl name params body), s)

/-- The parameter-collecting loop inside `Parser::function`. Note that the
loop checks for an upcoming comma but never consumes it. -/
def pParamsLoop : Nat → List Token → PState → Option (List Token) × PState
| 0, _, s => (none, s)
| fuel + 1, acc, s =>
  match s.expect .identifier with
  | (none, s) => (none, s)
  | (some p, s) =>
      match s.peek with
      | none => (none, s)
      | some t =>
          if t.discriminant ≠ TokenDiscriminant.comma then (some (acc ++ [p]), s)
          else pParamsLoop fuel (acc ++ [p]) s

/-- `Parser::statement`. -/
def pStatement : Nat → PState → Option UStatement × PState
| 0, s => (none, s)
| fuel + 1, s =>
  match s.advanceOnMatch [.kwPrint] with
  | (some _, s) =>
      (match pExprThenSemicolon fuel s with
      | (none, s) => (none, s)
      | (some e, s) => (some (.printStmt e), s))
  | (none, s) =>
  match s.advanceOnMatch [.kwWhile] with
  | (some _, s) => pWhileStatement fuel s
  | (none, s) =>
  match s.advanceOnMatch [.kwFor] with
  | (some _, s) => pForStatement fuel s
  | (none, s) =>
  match s.advanceOnMatch [.kwIf] with
  | (some _, s) => pIfElseStatement fuel s
  | (none, s) =>
  match s.advanceOnMatch [.leftBrace] with
  | (some _, s) =>
      (match pBlockStatement fuel s with
      | (none, s) => (none, s)
      | (some stmts, s) => (some (.blockStmt stmts), s))
  | (none, s) =>
      match pExprThenSemicolon fuel s with
      | (none, s) => (none, s)
      | (some e, s) => (some (.exprStmt e), s)

/-- `Parser::print_statement` / `Parser::expression_statement` share this
shape: an expression followed by an expected semicolon. -/
def pExprThenSemicolon : Nat → PState → Option UExpression × PState
| 0, s => (none, s)
| fuel + 1, s =>
  match pExpression fuel s with
  | (none, s) => (none, s)
  | (some e, s) =>
      match s.expect .semicolon with
      | (none, s) => (none, s)
      | (some _, s) => (some e, s)

/-- `Parser::for_statement`, including the parse-time desugaring to `while`. -/
def pForStatement : Nat → PState → Option UStatement × PState
| 0, s => (none, s)
| fuel + 1, s =>
  match s.expect .leftParen with
  | (none, s) => (none, s)
  | (some _, s) =>
  match (match s.advanceOnMatch [.semicolon] with
         | (some _, s) => (some none, s)
         | (none, s) =>
           if (s.peek.map (fun t => t.discriminant == TokenDiscriminant.kwVar)).getD false then
             match pDeclaration fuel s with
             | (none, s) => (none, s)
             | (some st, s) => (some (some st), s)
           else
             match pExprThenSemicolon fuel s with
             | (none, s) => (none, s)
             | (some e, s) => (some (some (UStatement.exprStmt e)), s)) with
  | (none, s) => (none, s)
  | (some initializer, s) =>
  match s.peek with
  | none => (none, s)
  | some t =>
  match (if t.discriminant = TokenDiscriminant.semicolon then ((some none : Option (Option UExpression)), s)
         else match pExpression fuel s with
              | (none, s) => (none, s)
              | (some e, s) => (some (some e), s)) with
  | (none, s) => (none, s)
  | (some condition, s) =>
  match s.expect .semicolon with
  | (none, s) => (none, s)
  | (some _, s) =>
  match s.peek with
  | none => (none, s)
  | some t2 =>
  match (if t2.discriminant = TokenDiscriminant.rightParen then ((some none : Option (Option UExpression)), s)
         else match pExpression fuel s with
              | (none, s) => (none, s)
              | (some e, s) => (some (some e), s)) with
  | (none, s) => (none, s)
  | (some increment, s) =>
  match s.expect .rightParen with
  | (none, s) => (none, s)
  | (some _, s) =>
  match pStatement fuel s with
  | (none, s) => (none, s)
  | (some body0, s) =>
    let body1 :=
      match increment with
      | some inc => UStatement.blockStmt [body0, .exprStmt inc]
      | none => body0
    let body2 := UStatement.whileStmt
      (condition.getD (.literal (.boolean true))) body1
    let body3 :=
      match initializer with
      | some init => UStatement.blockStmt [init, body2]
      | none => body2
    (some body3, s)

/-- `Parser::block_statement` (the contained statement list is returned). -/
def pBlockStatement : Nat → PState → Option (List UStatement) × PState
| 0, s => (none, s)
| fuel + 1, s =>
  match pBlockLoop fuel [] s with
  | (none, s) => (none, s)
  | (some stmts, s) =>
      match s.expect .rightBrace with
      | (none, s) => (none, s)
      | (some _, s) => (some stmts, s)

/-- The statement-collecting loop inside `Parser::block_statement`. -/
def pBlockLoop : Nat → List UStatement → PState → Option (List UStatement) × PState
| 0, _, s => (none, s)
| fuel + 1, acc, s =>
  if s.isAtEnd then (some acc, s)
  else if (s.peek.map (fun t => t.discriminant == TokenDiscriminant.rightBrace)).getD false then
    (some acc, s)
  else
    match pDeclaration fuel s with
    | (none, s) => (none, s)
    | (some st, s) => pBlockLoop fuel (acc ++ [st]) s

/-- `Parser::while_statement`. -/
def pWhileStatement : Nat → PState → Option UStatement × PState
| 0, s => (none, s)
| fuel + 1, s =>
  match s.expect .leftParen with
  | (none, s) => (none, s)
  | (some _, s) =>
  match pExpression fuel s with
  | (none, s) => (none, s)
  | (some condition, s) =>
  match s.expect .rightParen with
  | (none, s) => (none, s)
  | (some _, s) =>
  match pStatement fuel s with
  | (none, s) => (none, s)
  | (some body, s) => (some (.whileStmt condition body), s)

/-- `Parser::if_else_statement` (the `else` branch is claimed by the same
recursive call that parsed the `if`). -/
def pIfElseStatement : Nat → PState → Option UStatement × PState
| 0, s => (none, s)
| fuel + 1, s =>
  match s.expect .leftParen with
  | (none, s) => (none, s)
  | (some _, s) =>
  match pExpression fuel s with
  | (none, s) => (none, s)
  | (some condition, s) =>
  match s.expect .rightParen with
  | (none, s) => (none, s)
  | (some _, s) =>
  match pStatement fuel s with
  | (none, s) => (none, s)
  | (some ifBranch, s) =>
  match s.advanceOnMatch [.kwElse] with
  | (some _, s) =>
      (match pStatement fuel s with
      | (none, s) => (none, s)
      | (some elseBranch, s) => (some (.ifElse condition ifBranch (some elseBranch)), s))
  | (none, s) => (some (.ifElse condition ifBranch none), s)

/-- `Parser::expression`. -/
def pExpression : Nat → PState → Option UExpression × PState
| 0, s => (none, s)
| fuel + 1, s => pAssignment fuel s

/-- `Parser::assignment` (right-associative; only a bare variable reference
is a legal assignment target). -/
def pAssignment : Nat → PState → Option UExpression × PState
| 0, s => (none, s)
| fuel + 1, s =>
  match pOr fuel s with
  | (none, s) => (none, s)
  | (some expr, s) =>
    match s.advanceOnMatch [.equal] with
    | (some _, s) =>
        (match pAssignment fuel s with
        | (none, s) => (none, s)
        | (some value, s) =>
            match expr with
            | .varRef ident => (some (.varAssign ident value), s)
            | _ => (none, s))
    | (none, s) => (some expr, s)

/-- `Parser::or`. -/
def pOr : Nat → PState → Option UExpression × PState
| 0, s => (none, s)
| fuel + 1, s =>
  match pAnd fuel s with
  | (none, s) => (none, s)
  | (some e, s) => pOrLoop fuel e s

/-- The `while advance_on_match([Or])` loop of `Parser::or`. -/
def pOrLoop : Nat → UExpression → PState → Option UExpression × PState
| 0, _, s => (none, s)
| fuel + 1, e, s =>
  match s.advanceOnMatch [.kwOr] with
  | (some op, s) =>
      (match pAnd fuel s with
      | (none, s) => (none, s)
      | (some r, s) => pOrLoop fuel (.binary e op r) s)
  | (none, s) => (some e, s)

/-- `Parser::and`. -/
def pAnd : Nat → PState → Option UExpression × PState
| 0, s => (none, s)
| fuel + 1, s =>
  match pEquality fuel s with
  | (none, s) => (none, s)
  | (some e, s) => pAndLoop fuel e s

/-- The `while advance_on_match([And])` loop of `Parser::and`. -/
def pAndLoop : Nat → UExpression → PState → Option UExpression × PState
| 0, _, s => (none, s)
| fuel + 1, e, s =>
  match s.advanceOnMatch [.kwAnd] with
  | (some op, s) =>
      (match pEquality fuel s with
      | (none, s) => (none, s)
      | (some r, s) => pAndLoop fuel (.binary e op r) s)
  | (none, s) => (some e, s)

/-- `Parser::equality`. -/
def pEquality : Nat → PState → Option UExpression × PState
| 0, s => (none, s)
| fuel + 1, s =>
  match pComparison fuel s with
  | (none, s) => (none, s)
  | (some e, s) => pEqualityLoop fuel e s

/-- The operator loop of `Parser::equality`. The matched set in the source is
`[EqualEqual, EqualEqual]` — the `EqualEqual` discriminant appears twice and
`BangEqual` is absent. -/
def pEqualityLoop : Nat → UExpression → PState → Option UExpression × PState
| 0, _, s => (none, s)
| fuel + 1, e, s =>
  match s.advanceOnMatch [.equalEqual, .equalEqual] with
  | (some op, s) =>
      (match pComparison fuel s with
      | (none, s) => (none, s)
      | (some r, s) => pEqualityLoop fuel (.binary e op r) s)
  | (none, s) => (some e, s)

/-- `Parser::comparison`. -/
def pComparison : Nat → PState → Option UExpression × PState
| 0, s => (none, s)
| fuel + 1, s =>
  match pTerm fuel s with
  | (none, s) => (none, s)
  | (some e, s) => pComparisonLoop fuel e s

/-- The operator loop of `Parser::comparison`. -/
def pComparisonLoop : Nat → UExpression → PState → Option UExpression × PState
| 0, _, s => (none, s)
| fuel + 1, e, s =>
  match s.advanceOnMatch [.greater, .greaterEqual, .less, .lessEqual] with
  | (some op, s) =>
      (match pTerm fuel s with
      | (none, s) => (none, s)
      | (some r, s) => pComparisonLoop fuel (.binary e op r) s)
  | (none, s) => (some e, s)

/-- `Parser::term`. -/
def pTerm : Nat → PState → Option UExpression × PState
| 0, s => (none, s)
| fuel + 1, s =>
  match pFactor fuel s with
  | (none, s) => (none, s)
  | (some e, s) => pTermLoop fuel e s

/-- The operator loop of `Parser::term`. -/
def pTermLoop : Nat → UExpression → PState → Option UExpression × PState
| 0, _, s => (none, s)
| fuel + 1, e, s =>
  match s.advanceOnMatch [.minus, .plus] with
  | (some op, s) =>
      (match pFactor fuel s with
      | (none, s) => (none, s)
      | (some r, s) => pTermLoop fuel (.binary e op r) s)
  | (none, s) => (some e, s)

/-- `Parser::factor`. -/
def pFactor : Nat → PState → Option UExpression × PState
| 0, s => (none, s)
| fuel + 1, s =>
  match pUnary fuel s with
  | (none, s) => (none, s)
  | (some e, s) => pFactorLoop fuel e s

/-- The operator loop of `Parser::factor`. -/
def pFactorLoop : Nat → UExpression → PState → Option UExpression × PState
| 0, _, s => (none, s)
| fuel + 1, e, s =>
  match s.advanceOnMatch [.slash, .star] with
  | (some op, s) =>
      (match pUnary fuel s with
      | (none, s) => (none, s)
      | (some r, s) => pFactorLoop fuel (.binary e op r) s)
  | (none, s) => (some e, s)

/-- `Parser::unary`. -/
def pUnary : Nat → PState → Option UExpression × PState
| 0, s => (none, s)
| fuel + 1, s =>
  match s.advanceOnMatch [.bang, .minus] with
  | (some op, s) =>
      (match pUnary fuel s with
      | (none, s) => (none, s)
      | (some e, s) => (some (.unary op e), s))
  | (none, s) => pCall fuel s

/-- `Parser::call`. -/
def pCall : Nat → PState → Option UExpression × PState
| 0, s => (none, s)
| fuel + 1, s =>
  match pPrimary fuel s with
  | (none, s) => (none, s)
  | (some callee, s) => pCallLoop fuel callee s

/-- The postfix `(args)` loop of `Parser::call`. -/
def pCallLoop : Nat → UExpression → PState → Option UExpression × PState
| 0, _, s => (none, s)
| fuel + 1, callee, s =>
  match s.advanceOnMatch [.leftParen] with
  | (some _, s) =>
      (match pFinishCall fuel callee s with
      | (none, s) => (none, s)
      | (some e, s) => pCallLoop fuel e s)
  | (none, s) => (some callee, s)

/-- `Parser::finish_call`. -/
def pFinishCall : Nat → UExpression → PState → Option UExpression × PState
| 0, _, s => (none, s)
| fuel + 1, callee, s =>
  match s.peek with
  | none => (none, s)
  | some t =>
  match (if t.discriminant ≠ TokenDiscriminant.rightParen
         then pArgsLoop fuel [] s else (some [], s)) with
  | (none, s) => (none, s)
  | (some args, s) =>
  match s.expect .rightParen with
  | (none, s) => (none, s)
  | (some cp, s) =>
      -- "You can't have more than 255 arguments" is printed and `None`
      -- returned when the argument count reaches 255
      if args.length ≥ 255 then (none, s)
      else (some (.call callee cp args), s)

/-- The argument-collecting loop inside `Parser::finish_call`. Note that the
loop checks for an upcoming comma but never consumes it. -/
def pArgsLoop : Nat → List UExpression → PState → Option (List UExpression) × PState
| 0, _, s => (none, s)
| fuel + 1, acc, s =>
  match pExpression fuel s with
  | (none, s) => (none, s)
  | (some e, s) =>
      match s.peek with
      | none => (none, s)
      | some t =>
          if t.discriminant ≠ TokenDiscriminant.comma then (some (acc ++ [e]), s)
          else pArgsLoop fuel (acc ++ [e]) s

/-- `Parser::primary`. -/
def pPrimary : Nat → PState → Option UExpression × PState
| 0, s => (none, s)
| fuel + 1, s =>
  match s.advanceOnMatch [.kwTrue] with
  | (some _, s) => (some (.literal (.boolean true)), s)
  | (none, s) =>
  match s.advanceOnMatch [.kwFalse] with
  | (some _, s) => (some (.literal (.boolean false)), s)
  | (none, s) =>
  match s.advanceOnMatch [.kwNil] with
  | (some t, s) => (some (.literal (.nullLit t)), s)
  | (none, s) =>
  match s.advanceOnMatch [.number] with
  | (some t, s) => (some (.literal (.numLit t)), s)
  | (none, s) =>
  match s.advanceOnMatch [.string] with
  | (some t, s) => (some (.literal (.strLit t)), s)
  | (none, s) =>
  match s.advanceOnMatch [.identifier] with
  | (some t, s) => (some (.varRef t), s)
  | (none, s) =>
  match s.advanceOnMatch [.leftParen] with
  | (some _, s) =>
      (match pExpression fuel s with
      | (none, s) => (none, s)
      | (some e, s) =>
          match s.expect .rightParen with
          | (none, s) => (none, s)
          | (some _, s) => (some (.grouping e), s))
  | (none, s) => (none, { s with mode := .errorRecovery })

end

/-- The `while !parser.is_at_end()` loop of `Parser::parse`; carries the
`has_errored` flag and the statements parsed so far. -/
def pParseLoop : Nat → Nat → PState → Bool → List UStatement →
    Except (List UStatement) (List UStatement)
| 0, _, _, hasErrored, acc => if hasErrored then .error acc else .ok acc
| fuel + 1, dFuel, s, hasErrored, acc =>
  if s.isAtEnd then (if hasErrored then .error acc else .ok acc)
  else
    match pDeclaration dFuel s with
    | (some st, s) => pParseLoop fuel dFuel s hasErrored (acc ++ [st])
    | (none, s) =>
        pParseLoop fuel dFuel { s with tokens := advanceUntilRecoveryPoint s.tokens } true acc

/-- `Parser::parse`: the `Source` wrapper filters trivia tokens, then
declarations are parsed until end of input; `Except.error` is the
partial-statements-plus-failure-flag outcome. Both fuels are sufficient for
every input: the outer loop consumes at least one token per iteration and
the grammar consumes a token at least every few recursive steps. -/
def parseTokens (tokens : List Token) : Except (List UStatement) (List UStatement) :=
  let filtered := tokens.filter (fun t => t.discriminant ≠ TokenDiscriminant.trivia)
  pParseLoop (filtered.length + 1) (40 * filtered.length + 40)
    { tokens := filtered, mode := .normal } false []

/-- Scan then parse, reporting whether the parse failed. -/
def parseFails (src : String) : Bool :=
  match parseTokens (scanSource src) with
  | .error _ => true
  | .ok _ => false

/-!
## Name resolution (`src/resolver/`)

`BindingId` follows `resolver/environment.rs`, where binding ids are built
as a numeric newtype from the environment's cursor (`resolver/mod.rs` holds
an enum variant of the type from another snapshot iteration; no code in the
crate constructs it).
-/

/-- A resolver-assigned storage-slot identifier. -/
structure BindingId where
  id : Nat
deriving DecidableEq

/-- `BindingStatus` from `src/resolver/resolver.rs`. -/
inductive BindingStatus
| initialized
| uninitialized
deriving DecidableEq

/-- `HashMap::insert`: replace the value under the key, or append the pair. -/
def assocInsert {α β : Type} [BEq α] (k : α) (v : β) : List (α × β) → List (α × β)
| [] => [(k, v)]
| (k0, v0) :: rest => if k0 == k then (k, v) :: rest else (k0, v0) :: assocInsert k v rest

/-- `HashSet::insert`: add the element if it is not present. -/
def setInsert (x : String) (xs : List String) : List String :=
  if xs.contains x then xs else xs ++ [x]

/-- The resolver's uninitialized-reference error message
(`src/resolver/resolver.rs`, the `VariableReference` arm). -/
def uninitializedReferenceMsg : String :=
  "You cannot reference an uninitialized variable. This can also happen if you are referencing a variable in its own initializer."

/-- The resolver environment's undefined-variable read error message
(`src/resolver/environment.rs`, `Environment::get`). -/
def undefinedVariableMsg : String := "Tried to read an undefined variable"

/-- `Scope` from `src/resolver/environment.rs`. -/
structure RScope where
  bindings : List (String × BindingId × BindingStatus)
  failedVariableLookups : List String

/-- `Scope::default`. -/
def RScope.empty : RScope := ⟨[], []⟩

/-- `Scope::define`: reserve the slot in `Uninitialized` status. -/
def RScope.define (sc : RScope) (name : String) (bindingId : BindingId) : RScope :=
  { sc with bindings := assocInsert name (bindingId, .uninitialized) sc.bindings }

/-- `Scope::assign`: mark the slot `Initialized` and return its id; record a
failed lookup when the name is absent. -/
def RScope.assign (sc : RScope) (name : String) : Option BindingId × RScope :=
  match sc.bindings.lookup name with
  | none =>
      (none, { sc with failedVariableLookups := setInsert name sc.failedVariableLookups })
  | some (bid, _) =>
      (some bid, { sc with bindings := assocInsert name (bid, .initialized) sc.bindings })

/-- `Scope::get`: read the slot; record a failed lookup when absent. -/
def RScope.get (sc : RScope) (name : String) : Option (BindingId × BindingStatus) × RScope :=
  match sc.bindings.lookup name with
  | none =>
      (none, { sc with failedVariableLookups := setInsert name sc.failedVariableLookups })
  | some v => (some v, sc)

/-- `Environment` from `src/resolver/environment.rs`. The parent-scope stack
is kept innermost-first (the Rust `Vec` is pushed at the back and walked in
reverse; a cons-list walked front-to-back is the same discipline). -/
structure REnv where
  currentScope : RScope
  parentScopes : List RScope
  bindingIdCursor : Nat

/-- `Environment::new`. -/
def REnv.new : REnv := ⟨RScope.empty, [], 0⟩

/-- `Environment::enter_scope`. -/
def REnv.enterScope (env : REnv) : REnv :=
  { env with currentScope := RScope.empty, parentScopes := env.currentScope :: env.parentScopes }

/-- `Environment::exit_scope` (`parent_scopes.pop().unwrap()`; at every call
site a scope was just entered, so the stack is nonempty). -/
def REnv.exitScope (env : REnv) : REnv :=
  match env.parentScopes with
  | p :: rest => { env with currentScope := p, parentScopes := rest }
  | [] => env

/-- `Environment::define`: mint a fresh id from the cursor and reserve the
slot in the current scope. -/
def REnv.define (env : REnv) (name : String) : BindingId × REnv :=
  let newId : BindingId := ⟨env.bindingIdCursor⟩
  (newId, { env with
            bindingIdCursor := env.bindingIdCursor + 1
            currentScope := env.currentScope.define name newId })

/-- The parent-scope walk of `Environment::assign` (innermost first; every
scope visited before the hit records the failed lookup). -/
def scopesAssign : List RScope → String → Option BindingId × List RScope
| [], _ => (none, [])
| sc :: rest, name =>
  match sc.assign name with
  | (some bid, sc') => (some bid, sc' :: rest)
  | (none, sc') =>
      match scopesAssign rest name with
      | (r, rest') => (r, sc' :: rest')

/-- `Environment::assign`. -/
def REnv.assign (env : REnv) (name : String) : Except String BindingId × REnv :=
  match env.currentScope.assign name with
  | (some bid, cur) => (.ok bid, { env with currentScope := cur })
  | (none, cur) =>
      match scopesAssign env.parentScopes name with
      | (some bid, ps) => (.ok bid, { env with currentScope := cur, parentScopes := ps })
      | (none, ps) =>
          (.error "Tried to assign a value to an undefined variable",
           { env with currentScope := cur, parentScopes := ps })

/-- The parent-scope walk of `Environment::get`. -/
def scopesGet : List RScope → String → Option (BindingId × BindingStatus) × List RScope
| [], _ => (none, [])
| sc :: rest, name =>
  match sc.get name with
  | (some v, sc') => (some v, sc' :: rest)
  | (none, sc') =>
      match scopesGet rest name with
      | (r, rest') => (r, sc' :: rest')

/-- `Environment::get`. -/
def REnv.get (env : REnv) (name : String) : Except String (BindingId × BindingStatus) × REnv :=
  match env.currentScope.get name with
  | (some v, cur) => (.ok v, { env with currentScope := cur })
  | (none, cur) =>
      match scopesGet env.parentScopes name with
      | (some v, ps) => (.ok v, { env with currentScope := cur, parentScopes := ps })
      | (none, ps) =>
          (.error undefinedVariableMsg,
           { env with currentScope := cur, parentScopes := ps })

/-!
## Resolved AST (`src/resolver/resolved_ast.rs`)

`FunctionDeclarationStatement` carries the `captured_binding_ids` field the
evaluator (`r_interpreter/tree_walker.rs`) reads; the checked-in
`resolved_ast.rs` snapshot predates that field, and the checked-in resolver
never populates it (the resolver's `FunctionDeclaration` arm below leaves it
empty, exactly as that snapshot does).
-/

mutual

inductive RStatement
| exprStmt (e : RExpression)
| printStmt (e : RExpression)
| varDecl (initializer : Option RExpression) (bindingId : BindingId)
| funDecl (d : RFunctionDecl)
| blockStmt (statements : List RStatement)
| ifElse (condition : RExpression) (ifBranch : RStatement) (elseBranch : Option RStatement)
| whileStmt (condition : RExpression) (body : RStatement)
| retStmt (keyword : Token) (value : RExpression)

inductive RFunctionDecl
| mk (nameBindingId : BindingId) (parametersBindingIds : List BindingId)
     (capturedBindingIds : List BindingId) (body : List RStatement)

inductive RExpression
| binary (left : RExpression) (operator : Token) (right : RExpression)
| unary (operator : Token) (operand : RExpression)
| literal (l : RLiteral)
| grouping (e : RExpression)
| varRef (bindingId : BindingId)
| varAssign (bindingId : BindingId) (value : RExpression)
| call (callee : RExpression) (closingParenthesis : Token) (arguments : List RExpression)

inductive RLiteral
| boolean (b : Bool)
| nullLit (t : Token)
| strLit (t : Token)
| numLit (t : Token)

end

/-- `FunctionDeclarationStatement::name_binding_id`. -/
def RFunctionDecl.nameBindingId : RFunctionDecl → BindingId
| .mk n _ _ _ => n

/-- `FunctionDeclarationStatement::parameters_binding_ids`. -/
def RFunctionDecl.parametersBindingIds : RFunctionDecl → List BindingId
| .mk _ p _ _ => p

/-- `FunctionDeclarationStatement::captured_binding_ids`. -/
def RFunctionDecl.capturedBindingIds : RFunctionDecl → List BindingId
| .mk _ _ c _ => c

/-- `FunctionDeclarationStatement::body`. -/
def RFunctionDecl.body : RFunctionDecl → List RStatement
| .mk _ _ _ b => b

mutual

/-- `Resolver::resolve` (statement list; short-circuits on the first error). -/
def resolveList : Nat → REnv → List UStatement → REnv × Except String (List RStatement)
| _, env, [] => (env, .ok [])
| 0, env, _ :: _ => (env, .error "resolver fuel exhausted")
| fuel + 1, env, st :: rest =>
  match resolveStatement (fuel + 1) env st with
  | (env, .error e) => (env, .error e)
  | (env, .ok r) =>
      match resolveList fuel env rest with
      | (env, .error e) => (env, .error e)
      | (env, .ok rs) => (env, .ok (r :: rs))

/-- `Resolver::resolve_statement`. -/
def resolveStatement : Nat → REnv → UStatement → REnv × Except String RStatement
| 0, env, _ => (env, .error "resolver fuel exhausted")
| fuel + 1, env, st =>
  match st with
  | .varDecl initializer identTok =>
      -- the slot is reserved (Uninitialized) before the initializer resolves
      let identifier := identTok.lexeme
      let stepA := env.define identifier
      let bindingId := stepA.1
      (match (match initializer with
              | none => (stepA.2, Except.ok (none : Option RExpression))
              | some init =>
                  match resolveExpression fuel stepA.2 init with
                  | (env, .error e) => (env, .error e)
                  | (env, .ok r) => (env, .ok (some r))) with
      | (env, .error e) => (env, .error e)
      | (env, .ok rInit) =>
          if rInit.isSome then
            match env.assign identifier with
            | (.error e, env) => (env, .error e)
            | (.ok _, env) => (env, .ok (.varDecl rInit bindingId))
          else (env, .ok (.varDecl rInit bindingId)))
  | .exprStmt e =>
      (match resolveExpression fuel env e with
      | (env, .error err) => (env, .error err)
      | (env, .ok r) => (env, .ok (.exprStmt r)))
  | .printStmt e =>
      (match resolveExpression fuel env e with
      | (env, .error err) => (env, .error err)
      | (env, .ok r) => (env, .ok (.printStmt r)))
  | .funDecl nameTok params body =>
      -- the function name is assigned immediately to allow recursion
      let name := nameTok.lexeme
      let stepA := env.define name
      let nameBindingId := stepA.1
      (match stepA.2.assign name with
      | (.error e, env) => (env, .error e)
      | (.ok _, env) =>
          match resolveParams env params with
          | (env, .error e) => (env, .error e)
          | (env, .ok paramIds) =>
              match resolveList fuel env body with
              | (env, .error e) => (env, .error e)
              | (env, .ok rBody) =>
                  (env, .ok (.funDecl (.mk nameBindingId paramIds [] rBody))))
  | .blockStmt stmts =>
      -- the scope guard closes the scope before the outcome is questioned
      let stepB := resolveList fuel (env.enterScope) stmts
      let env := stepB.1.exitScope
      (match stepB.2 with
      | .error e => (env, .error e)
      | .ok rs => (env, .ok (.blockStmt rs)))
  | .ifElse condition ifBranch elseBranch =>
      (match resolveExpression fuel env condition with
      | (env, .error e) => (env, .error e)
      | (env, .ok rCond) =>
          match resolveStatement fuel env ifBranch with
          | (env, .error e) => (env, .error e)
          | (env, .ok rIf) =>
              match (match elseBranch with
                     | none => (env, Except.ok (none : Option RStatement))
                     | some eb =>
                         match resolveStatement fuel env eb with
                         | (env, .error e) => (env, .error e)
                         | (env, .ok r) => (env, .ok (some r))) with
              | (env, .error e) => (env, .error e)
              | (env, .ok rElse) => (env, .ok (.ifElse rCond rIf rElse)))
  | .whileStmt condition body =>
      (match resolveExpression fuel env condition with
      | (env, .error e) => (env, .error e)
      | (env, .ok rCond) =>
          match resolveStatement fuel env body with
          | (env, .error e) => (env, .error e)
          | (env, .ok rBody) => (env, .ok (.whileStmt rCond rBody)))
  | .retStmt keyword value =>
      match resolveExpression fuel env value with
      | (env, .error e) => (env, .error e)
      | (env, .ok r) => (env, .ok (.retStmt keyword r))

/-- The parameter fold inside the resolver's `FunctionDeclaration` arm:
define each parameter, then immediately assign it. -/
def resolveParams (env : REnv) : List Token → REnv × Except String (List BindingId)
| [] => (env, .ok [])
| p :: rest =>
  let stepA := env.define p.lexeme
  match stepA.2.assign p.lexeme with
  | (.error e, env) => (env, .error e)
  | (.ok _, env) =>
      match resolveParams env rest with
      | (env, .error e) => (env, .error e)
      | (env, .ok ids) => (env, .ok (stepA.1 :: ids))

/-- `Resolver::resolve_expression`. -/
def resolveExpression : Nat → REnv → UExpression → REnv × Except String RExpression
| 0, env, _ => (env, .error "resolver fuel exhausted")
| fuel + 1, env, e =>
  match e with
  | .binary left operator right =>
      (match resolveExpression fuel env left with
      | (env, .error err) => (env, .error err)
      | (env, .ok l) =>
          match resolveExpression fuel env right with
          | (env, .error err) => (env, .error err)
          | (env, .ok r) => (env, .ok (.binary l operator r)))
  | .unary operator operand =>
      (match resolveExpression fuel env operand with
      | (env, .error err) => (env, .error err)
      | (env, .ok r) => (env, .ok (.unary operator r)))
  | .literal l =>
      (env, .ok (.literal (match l with
        | .boolean b => .boolean b
        | .nullLit t => .nullLit t
        | .strLit t => .strLit t
        | .numLit t => .numLit t)))
  | .grouping g =>
      (match resolveExpression fuel env g with
      | (env, .error err) => (env, .error err)
      | (env, .ok r) => (env, .ok (.grouping r)))
  | .varRef identTok =>
      (match env.get identTok.lexeme with
      | (.error err, env) => (env, .error err)
      | (.ok (bindingId, bindingStatus), env) =>
          if bindingStatus = BindingStatus.uninitialized then
            (env, .error uninitializedReferenceMsg)
          else (env, .ok (.varRef bindingId)))
  | .varAssign identTok value =>
      (match resolveExpression fuel env value with
      | (env, .error err) => (env, .error err)
      | (env, .ok rValue) =>
          match env.assign identTok.lexeme with
          | (.error err, env) => (env, .error err)
          | (.ok bindingId, env) => (env, .ok (.varAssign bindingId rValue)))
  | .call callee cp args =>
      match resolveExpression fuel env callee with
      | (env, .error err) => (env, .error err)
      | (env, .ok rCallee) =>
          match resolveArgs fuel env args with
          | (env, .error err) => (env, .error err)
          | (env, .ok rArgs) => (env, .ok (.call rCallee cp rArgs))

/-- The argument collect inside the resolver's `Call` arm. -/
def resolveArgs : Nat → REnv → List UExpression → REnv × Except String (List RExpression)
| _, env, [] => (env, .ok [])
| 0, env, _ :: _ => (env, .error "resolver fuel exhausted")
| fuel + 1, env, a :: rest =>
  match resolveExpression (fuel + 1) env a with
  | (env, .error err) => (env, .error err)
  | (env, .ok r) =>
      match resolveArgs fuel env rest with
      | (env, .error err) => (env, .error err)
      | (env, .ok rs) => (env, .ok (r :: rs))

end

/-- `Resolver::new().resolve(statements)`. -/
def resolveProgram (fuel : Nat) (statements : List UStatement) :
    REnv × Except String (List RStatement) :=
  resolveList fuel REnv.new statements

/-!
## Runtime values and the tree-walking evaluator (`src/r_interpreter/`)

`Rc<RefCell<LoxValue>>` cells are addresses (`Nat`) into an explicit heap;
the interpreter's `bindings: HashMap<BindingId, Rc<RefCell<LoxValue>>>` is
an association list from binding id to cell address. Cloning an `Rc` is
copying the address, so "the same cell" is literal address equality.
-/

/-- `LoxValue` from `src/r_interpreter/lox_value.rs`; the `Function` variant
carries its `definition` and its `captured_environment` (captured binding id
to shared cell address). -/
inductive LoxValue
| boolean (b : Bool)
| null
| str (s : String)
| number (q : LoxNum)
| function (definition : RFunctionDecl) (captured : List (BindingId × Nat))

/-- `LoxValue::is_truthy`. -/
def LoxValue.isTruthy : LoxValue → Bool
| .null => false
| .boolean b => b
| _ => true

/-- `LoxValue::is_equal` (same-variant scalar equality, no coercion). -/
def LoxValue.isEqual : LoxValue → LoxValue → Bool
| .null, .null => true
| .str s, .str r => s == r
| .boolean s, .boolean r => s == r
| .number s, .number r => s.valEq r
| _, _ => false

/-- The `Display` implementation of `LoxValue`. -/
def LoxValue.display : LoxValue → String
| .boolean b => if b then "true" else "false"
| .null => "`nil`"
| .str s => s
| .number n => n.display
| .function d _ => "<fn " ++ toString d.nameBindingId.id ++ ">"

/-- `RuntimeError` from `src/r_interpreter/tree_walker.rs`. -/
structure RuntimeError where
  t : Option Token
  msg : String
deriving DecidableEq

/-- `RuntimeError::new`. -/
def RuntimeError.ofToken (t : Token) (msg : String) : RuntimeError := ⟨some t, msg⟩

/-- `RuntimeError::operands_must_be_numbers`. -/
def RuntimeError.operandsMustBeNumbers (operator : Token) : RuntimeError :=
  ⟨some operator, "Operands must be numbers"⟩

/-- `RuntimeError::arity_mismatch` (the message names both counts). -/
def RuntimeError.arityMismatch (expected found : Nat) : RuntimeError :=
  ⟨none, "Expect " ++ toString expected ++ " arguments, but got " ++ toString found ++
         " arguments."⟩

/-- `RuntimeError::not_callable`. -/
def RuntimeError.notCallable (v : LoxValue) : RuntimeError :=
  ⟨none, "`" ++ v.display ++ "` is not callable."⟩

/-- `RuntimeError::unexpected_return`. -/
def RuntimeError.unexpectedReturn : RuntimeError :=
  ⟨none, "`return` was used in an illegal position"⟩

/-- `RuntimeErrorOrReturn`, extended with the two modelling artifacts: `bug`
stands for a Rust panic (`unwrap` / `expect` failure) and `fuelExhausted`
for running out of fuel (host-stack exhaustion is an accepted non-goal in
the source; no theorem below concludes anything from these two). -/
inductive RunErr
| runtime (e : RuntimeError)
| ret (v : LoxValue)
| bug (msg : String)
| fuelExhausted

/-- The interpreter state: the active binding store (`Interpreter::bindings`),
the cell heap (all live `Rc<RefCell<LoxValue>>` cells), the next fresh cell
address, and the lines written to the output sink by `print`. -/
structure InterpState where
  bindings : List (BindingId × Nat)
  heap : List (Nat × LoxValue)
  nextCell : Nat
  output : List String

/-- A fresh interpreter over an empty binding store (`Interpreter::new`). -/
def InterpState.initial : InterpState := ⟨[], [], 0, []⟩

/-- Read a cell (`RefCell::borrow`). -/
def heapGet (h : List (Nat × LoxValue)) (a : Nat) : Option LoxValue := h.lookup a

/-- Allocate a fresh cell holding `v` (`Rc::new(RefCell::new(v))`). -/
def InterpState.alloc (s : InterpState) (v : LoxValue) : Nat × InterpState :=
  (s.nextCell, { s with heap := assocInsert s.nextCell v s.heap, nextCell := s.nextCell + 1 })

/-- `num_op` from `src/r_interpreter/tree_walker.rs`. -/
def numOp (left right : LoxValue) (operator : Token)
    (operation : LoxNum → LoxNum → LoxValue) : Except RunErr LoxValue :=
  match left, right with
  | .number l, .number r => .ok (operation l r)
  | _, _ => .error (.runtime (RuntimeError.operandsMustBeNumbers operator))

/-- Model of `f64` `l > r`. -/
def LoxNum.gtb (a b : LoxNum) : Bool := decide (b.num * a.den < a.num * b.den)

/-- Model of `f64` `l >= r`. -/
def LoxNum.geb (a b : LoxNum) : Bool := decide (b.num * a.den ≤ a.num * b.den)

/-- The non-short-circuiting binary operator dispatch of `Interpreter::eval`
(`src/r_interpreter/tree_walker.rs`, after both operands were evaluated). -/
def evalBinaryOp (leftV rightV : LoxValue) (operator : Token) : Except RunErr LoxValue :=
  match operator.discriminant with
  | .minus => numOp leftV rightV operator (fun l r => .number (l.sub r))
  | .plus =>
      (match leftV, rightV with
      | .number l, .number r => .ok (.number (l.add r))
      | .str l, .str r => .ok (.str (l ++ r))
      | _, _ => .error (.runtime (RuntimeError.ofToken operator
          "`+` operands must either be both numbers or both strings")))
  | .slash => numOp leftV rightV operator (fun l r => .number (l.div r))
  | .star => numOp leftV rightV operator (fun l r => .number (l.mul r))
  -- as in the source: the `GreaterEqual` arm computes the strict comparison
  -- `l > r` and the `Greater` arm the non-strict `l >= r`
  | .greaterEqual => numOp leftV rightV operator (fun l r => .boolean (l.gtb r))
  | .greater => numOp leftV rightV operator (fun l r => .boolean (l.geb r))
  | .less => numOp leftV rightV operator (fun l r => .boolean (l.ltb r))
  | .lessEqual => numOp leftV rightV operator (fun l r => .boolean (l.leb r))
  | .equalEqual => .ok (.boolean (leftV.isEqual rightV))
  | .bangEqual => .ok (.boolean (!leftV.isEqual rightV))
  | _ => .error (.runtime (RuntimeError.ofToken operator "It is not a valid binary operator"))

/-- The captured-environment collect of the `FunctionDeclaration` arm of
`Interpreter::_execute`: clone the current shared cell handle for every
captured binding id (`self.bindings.get(&binding_id).unwrap()`). -/
def capturedEnvOf (bs : List (BindingId × Nat)) : List BindingId →
    Option (List (BindingId × Nat))
| [] => some []
| bid :: rest =>
  match bs.lookup bid with
  | none => none
  | some a =>
      match capturedEnvOf bs rest with
      | none => none
      | some env => some ((bid, a) :: env)

/-- The parameter-seeding loop of `LoxCallable::call`: a fresh cell per
(parameter, argument) pair, over `std::iter::zip` (which truncates at the
shorter list). -/
def allocParams (s : InterpState) (params : List BindingId) (args : List LoxValue) :
    List (BindingId × Nat) × InterpState :=
  (params.zip args).foldl
    (fun acc pa =>
      let step := acc.2.alloc pa.2
      (assocInsert pa.1 step.1 acc.1, step.2))
    ([], s)

/-- The function-local binding map of `LoxCallable::call`, mounted as the
active binding store for the duration of the body: fresh parameter cells
first, then the shared captured cells on top. -/
def mountCallFrame (s : InterpState) (defn : RFunctionDecl)
    (captured : List (BindingId × Nat)) (args : List LoxValue) : InterpState :=
  let paramsStep := allocParams s defn.parametersBindingIds args
  { paramsStep.2 with
    bindings := captured.foldl (fun m p => assocInsert p.1 p.2 m) paramsStep.1 }

mutual

/-- `Interpreter::eval` (`src/r_interpreter/tree_walker.rs`). -/
def evalExpr : Nat → InterpState → RExpression → InterpState × Except RunErr LoxValue
| 0, s, _ => (s, .error .fuelExhausted)
| fuel + 1, s, e =>
  match e with
  | .binary left operator right =>
      (match evalExpr fuel s left with
      | (s, .error err) => (s, .error err)
      | (s, .ok leftV) =>
          -- short-circuiting operators are handled first
          if operator.discriminant = TokenDiscriminant.kwOr then
            (if leftV.isTruthy then (s, .ok leftV) else evalExpr fuel s right)
          else if operator.discriminant = TokenDiscriminant.kwAnd then
            (if !leftV.isTruthy then (s, .ok leftV) else evalExpr fuel s right)
          else
            match evalExpr fuel s right with
            | (s, .error err) => (s, .error err)
            | (s, .ok rightV) => (s, evalBinaryOp leftV rightV operator))
  | .unary operator operand =>
      (match evalExpr fuel s operand with
      | (s, .error err) => (s, .error err)
      | (s, .ok v) =>
          match operator.discriminant with
          | .minus =>
              (match v with
              | .number n => (s, .ok (.number n.neg))
              | _ => (s, .error (.runtime (RuntimeError.ofToken operator
                  "Operand must be a number"))))
          | .bang => (s, .ok (.boolean (!v.isTruthy)))
          | _ => (s, .error (.runtime (RuntimeError.ofToken operator
              "`!` and `-` are the only valid unary operators"))))
  | .literal l =>
      (match l with
      | .boolean b => (s, .ok (.boolean b))
      | .nullLit _ => (s, .ok .null)
      | .strLit t =>
          (match t.stringLit with
          | some str => (s, .ok (.str str))
          | none => (s, .error (.bug "string literal token without a string payload")))
      | .numLit t =>
          match t.numberLit with
          | some q => (s, .ok (.number q))
          | none => (s, .error (.bug "number literal token without a number payload")))
  | .grouping g => evalExpr fuel s g
  | .varRef bindingId =>
      (match s.bindings.lookup bindingId with
      | none => (s, .error (.bug "Failed to look up the value of a variable reference via its binding id. This is an interpreter bug."))
      | some a =>
          match heapGet s.heap a with
          | some v => (s, .ok v)
          | none => (s, .error (.bug "dangling cell address")))
  | .varAssign bindingId value =>
      (match evalExpr fuel s value with
      | (s, .error err) => (s, .error err)
      | (s, .ok v) =>
          -- entry().and_modify(write through the cell).or_insert_with(fresh cell)
          match s.bindings.lookup bindingId with
          | some a => ({ s with heap := assocInsert a v s.heap }, .ok v)
          | none =>
              let step := s.alloc v
              ({ step.2 with bindings := assocInsert bindingId step.1 step.2.bindings }, .ok v))
  | .call callee _ args =>
      match evalExpr fuel s callee with
      | (s, .error err) => (s, .error err)
      | (s, .ok calleeV) =>
          match evalArgs fuel s args with
          | (s, .error err) => (s, .error err)
          | (s, .ok argVals) =>
              match calleeV with
              | .function defn captured =>
                  -- `arguments.len() as u8` and `LoxCallable::arity` (also u8)
                  let nArguments := argVals.length % 256
                  let arity := defn.parametersBindingIds.length % 256
                  if arity ≠ nArguments then
                    (s, .error (.runtime (RuntimeError.arityMismatch arity nArguments)))
                  else callFunction fuel s defn captured argVals
              | _ => (s, .error (.runtime (RuntimeError.notCallable calleeV)))

/-- The left-to-right argument evaluation inside the `Call` arm of
`Interpreter::eval`. -/
def evalArgs : Nat → InterpState → List RExpression →
    InterpState × Except RunErr (List LoxValue)
| _, s, [] => (s, .ok [])
| 0, s, _ :: _ => (s, .error .fuelExhausted)
| fuel + 1, s, a :: rest =>
  match evalExpr fuel s a with
  | (s, .error err) => (s, .error err)
  | (s, .ok v) =>
      match evalArgs fuel s rest with
      | (s, .error err) => (s, .error err)
      | (s, .ok vs) => (s, .ok (v :: vs))

/-- `Interpreter::_execute` (`src/r_interpreter/tree_walker.rs`). -/
def execStmt : Nat → InterpState → RStatement → InterpState × Except RunErr Unit
| 0, s, _ => (s, .error .fuelExhausted)
| fuel + 1, s, st =>
  match st with
  | .exprStmt e =>
      (match evalExpr fuel s e with
      | (s, .error err) => (s, .error err)
      | (s, .ok _) => (s, .ok ()))
  | .printStmt e =>
      (match evalExpr fuel s e with
      | (s, .error err) => (s, .error err)
      | (s, .ok v) => ({ s with output := s.output ++ [v.display] }, .ok ()))
  | .varDecl initializer bindingId =>
      (match (match initializer with
              | some init => evalExpr fuel s init
              | none => (s, .ok .null)) with
      | (s, .error err) => (s, .error err)
      | (s, .ok v) =>
          let step := s.alloc v
          ({ step.2 with bindings := assocInsert bindingId step.1 step.2.bindings }, .ok ()))
  | .blockStmt stmts => execStmts fuel s stmts
  | .ifElse condition ifBranch elseBranch =>
      (match evalExpr fuel s condition with
      | (s, .error err) => (s, .error err)
      | (s, .ok v) =>
          if v.isTruthy then execStmt fuel s ifBranch
          else match elseBranch with
               | some eb => execStmt fuel s eb
               | none => (s, .ok ()))
  | .whileStmt condition body =>
      (match evalExpr fuel s condition with
      | (s, .error err) => (s, .error err)
      | (s, .ok v) =>
          if v.isTruthy then
            match execStmt fuel s body with
            | (s, .error err) => (s, .error err)
            | (s, .ok _) => execStmt fuel s (.whileStmt condition body)
          else (s, .ok ()))
  | .funDecl d =>
      -- the function cell is inserted under its own binding id first, then
      -- the captured environment is filled in with the current shared cell
      -- handles (two-phase, enabling self-capture for recursion)
      let a := s.nextCell
      let s1 : InterpState :=
        { s with
          heap := assocInsert a (LoxValue.function d []) s.heap
          nextCell := a + 1
          bindings := assocInsert d.nameBindingId a s.bindings }
      (match capturedEnvOf s1.bindings d.capturedBindingIds with
      | some env =>
          ({ s1 with heap := assocInsert a (LoxValue.function d env) s1.heap }, .ok ())
      | none =>
          (s1, .error (.bug "captured binding id missing from the binding store")))
  | .retStmt _ value =>
      match evalExpr fuel s value with
      | (s, .error err) => (s, .error err)
      | (s, .ok v) => (s, .error (.ret v))

/-- The statement loop shared by `LoxCallable::call` and block execution. -/
def execStmts : Nat → InterpState → List RStatement → InterpState × Except RunErr Unit
| _, s, [] => (s, .ok ())
| 0, s, _ :: _ => (s, .error .fuelExhausted)
| fuel + 1, s, st :: rest =>
  match execStmt fuel s st with
  | (s, .error err) => (s, .error err)
  | (s, .ok _) => execStmts fuel s rest

/-- `LoxCallable::call` for `Function`
(`src/r_interpreter/lox_callable.rs`): seed a call-local binding map with
fresh parameter cells plus the shared captured cells, temporarily install it
as the active binding store, run the body, and restore the caller's binding
store on every exit path; a `Return` carrier becomes the call's value and
falling through yields `Null`. -/
def callFunction : Nat → InterpState → RFunctionDecl → List (BindingId × Nat) →
    List LoxValue → InterpState × Except RunErr LoxValue
| 0, s, _, _, _ => (s, .error .fuelExhausted)
| fuel + 1, s, defn, captured, args =>
  -- `mem::replace`: the saved map is the caller's binding store (cell
  -- allocation for the parameters never touches `bindings`)
  let saved := s.bindings
  match execStmts fuel (mountCallFrame s defn captured args) defn.body with
  | (s2, .ok _) => ({ s2 with bindings := saved }, .ok .null)
  | (s2, .error (.ret v)) => ({ s2 with bindings := saved }, .ok v)
  | (s2, .error err) => ({ s2 with bindings := saved }, .error err)

end

/-- `Interpreter::execute`: a `Return` carrier escaping to the top level is
converted into the "illegal position" runtime error. -/
def executeStmt (fuel : Nat) (s : InterpState) (st : RStatement) :
    InterpState × Except RunErr Unit :=
  match execStmt fuel s st with
  | (s, .error (.ret _)) => (s, .error (.runtime RuntimeError.unexpectedReturn))
  | r => r

/-- `Interpreter::batch_execute`: execute statements in order, exiting at the
first error. -/
def batchExecute : Nat → InterpState → List RStatement → InterpState × Except RunErr Unit
| _, s, [] => (s, .ok ())
| fuel, s, st :: rest =>
  match executeStmt fuel s st with
  | (s, .ok _) => batchExecute fuel s rest
  | (s, .error err) => (s, .error err)

def numTok (lexeme : String) (q : LoxNum) : Token := ⟨.number, lexeme, some (.num q), 0⟩
def opTok (ty : TokenType) (lexeme : String) : Token := ⟨ty, lexeme, none, 0⟩
def litNum (n : Int) : RExpression := .literal (.numLit (numTok (toString n) ⟨n, 1⟩))

def countBody : List RStatement :=
  [.exprStmt (.varAssign ⟨1⟩ (.binary (.varRef ⟨1⟩) (opTok .plus "+") (litNum 1))),
   .printStmt (.varRef ⟨1⟩)]

def makeCounterBody : List RStatement :=
  [.varDecl (some (litNum 0)) ⟨1⟩,
   .funDecl (.mk ⟨2⟩ [] [⟨1⟩] countBody),
   .retStmt (opTok .kwReturn "return") (.varRef ⟨2⟩)]

def counterProgram : List RStatement :=
  [.funDecl (.mk ⟨0⟩ [] [] makeCounterBody),
   .varDecl (some (.call (.varRef ⟨0⟩) (opTok .rightParen ")") [])) ⟨3⟩,
   .exprStmt (.call (.varRef ⟨3⟩) (opTok .rightParen ")") []),
   .exprStmt (.call (.varRef ⟨3⟩) (opTok .rightParen ")") [])]


/-- A binding store holding one bound variable (binding id 1 in cell 0), used
to exercise closure capture at a concrete input. -/
def c5state : InterpState := ⟨[(⟨1⟩, 0)], [(0, .null)], 1, []⟩

/-- A function declaration capturing binding id 1, with an empty body. -/
def c5decl : RFunctionDecl := .mk ⟨2⟩ [] [⟨1⟩] []

/-- A parameterless function declaration with an empty body. -/
def c7decl : RFunctionDecl := .mk ⟨0⟩ [] [] []

/-- The resolver environment right after `var x` declared (and before any
initializer resolved): the slot for `x` is reserved in Uninitialized status. -/
def c9env : REnv := (REnv.new.define "x").2

/-!
## Theorems
-/

theorem assocInsert_lookup_self {α β : Type} [BEq α] [LawfulBEq α] (k : α) (v : β) :
    ∀ l : List (α × β), (assocInsert k v l).lookup k = some v := by
  intro l
  induction l with
  | nil => simp [assocInsert, List.lookup]
  | cons hd tl ih =>
      rcases hd with ⟨k0, v0⟩
      by_cases h : k0 == k
      · simp [assocInsert, h, List.lookup]
      · simp only [assocInsert, h, Bool.false_eq_true, if_false, List.lookup]
        have hne : k0 ≠ k := by simpa using h
        have h2 : (k == k0) = false := beq_eq_false_iff_ne.mpr (Ne.symm hne)
        simp [h2, ih]


theorem capturedEnvOf_mem {bs : List (BindingId × Nat)} :
    ∀ {ids : List BindingId} {env : List (BindingId × Nat)},
      capturedEnvOf bs ids = some env → ∀ p ∈ env, bs.lookup p.1 = some p.2 := by
  intro ids
  induction ids with
  | nil =>
      intro env h p hp
      simp only [capturedEnvOf, Option.some.injEq] at h
      subst h
      simp at hp
  | cons hd tl ih =>
      intro env h p hp
      simp only [capturedEnvOf] at h
      rcases hl : bs.lookup hd with _ | a <;> rw [hl] at h
      · exact absurd h (by simp)
      · rcases hr : capturedEnvOf bs tl with _ | env0 <;> rw [hr] at h
        · exact absurd h (by simp)
        · simp only [Option.some.injEq] at h
          subst h
          rcases List.mem_cons.mp hp with hp | hp
          · subst hp
            exact hl
          · exact ih hr p hp

/-- C1: the claim states that `l > r` evaluates to Boolean true exactly when
l is strictly greater than r and `l >= r` exactly when l ≥ r. The code has
the two arms swapped: the `Greater` arm computes `l >= r` and the
`GreaterEqual` arm computes `l > r`. At the failing input `1 > 1` the
evaluator produces Boolean true (the claim requires false), and `1 >= 1`
produces Boolean false (the claim requires true); `<` and `<=` behave as
claimed. -/
theorem c1_greater_and_greater_equal_arms_swapped :
    evalExpr 10 .initial (.binary (litNum 1) (opTok .greater ">") (litNum 1)) =
      (.initial, .ok (.boolean true)) ∧
    evalExpr 10 .initial (.binary (litNum 1) (opTok .greaterEqual ">=") (litNum 1)) =
      (.initial, .ok (.boolean false)) ∧
    evalExpr 10 .initial (.binary (litNum 2) (opTok .greater ">") (litNum 1)) =
      (.initial, .ok (.boolean true)) ∧
    evalExpr 10 .initial (.binary (litNum 1) (opTok .less "<") (litNum 1)) =
      (.initial, .ok (.boolean false)) := ⟨rfl, rfl, rfl, rfl⟩

/-- C2: the claim states that every well-formed `<expr> != <expr>;` parses
into a BangEqual binary node at the equality layer. The equality layer's
discriminant list is `[EqualEqual, EqualEqual]` — `BangEqual` is missing —
so `1 != 2;` is a parse failure while `1 == 2;` parses; the evaluator's
`BangEqual` arm (which the parser never feeds) does negate value equality. -/
theorem c2_bang_equal_never_parsed :
    parseFails "1 != 2;" = true ∧ parseFails "1 == 2;" = false ∧
    evalExpr 10 .initial (.binary (litNum 1) (opTok .bangEqual "!=") (litNum 2)) =
      (.initial, .ok (.boolean true)) := ⟨rfl, rfl, rfl⟩

/-- C3: the claim states that `return <expr>;` inside a function body parses
into a return-statement node. `Parser::statement` has no `return` branch
(and the checked-in `ast.rs` has no Return variant), so the `return` keyword
falls through to expression parsing and is a parse failure; the same
function body without the `return` parses fine. -/
theorem c3_return_statement_not_parsed :
    parseFails "fun f() { return 1; }" = true ∧
    parseFails "fun f() { print 1; }" = false := ⟨rfl, rfl⟩

/-- C4: the claim states that call argument lists (and parameter lists) with
at most 255 entries parse successfully. The collecting loops check for an
upcoming comma but never consume it, so already a two-entry list is a parse
failure (the next `expression()` / `expect(Identifier)` starts at the
comma); single-entry and empty lists parse. (The `>= 255` guard would
additionally reject a list of exactly 255 entries, but the comma bug makes
that boundary unreachable.) -/
theorem c4_multi_entry_argument_lists_rejected :
    parseFails "f(1);" = false ∧ parseFails "f(1, 2);" = true ∧
    parseFails "fun g(a) { print a; }" = false ∧
    parseFails "fun g(a, b) { print a; }" = true := ⟨rfl, rfl, rfl, rfl⟩

/-- C5: a closure captures the shared mutable cell of each captured
variable, not a snapshot of its value. Whenever a function declaration
executes successfully, the function value stored in its fresh cell carries a
captured environment that maps every captured binding id to exactly the cell
address held by the active binding store — the same cell, so writes through
any holder are visible through all others. Consequently the counter-closure
program (make a counter, call it twice) prints `1` then `2`. -/
theorem c5_closures_capture_shared_cells :
    (∀ (fuel : Nat) (s s' : InterpState) (d : RFunctionDecl)
       (env : List (BindingId × Nat)),
      execStmt (fuel + 1) s (.funDecl d) = (s', .ok ()) →
      heapGet s'.heap s.nextCell = some (.function d env) →
      ∀ p ∈ env, s'.bindings.lookup p.1 = some p.2) ∧
    ((batchExecute 50 .initial counterProgram).1.output = ["1", "2"] ∧
     (batchExecute 50 .initial counterProgram).2 = .ok ()) := by
  refine ⟨?_, rfl, rfl⟩
  intro fuel s s' d env hexec hheap p hp
  simp only [execStmt] at hexec
  rcases hc : capturedEnvOf
      (assocInsert d.nameBindingId s.nextCell s.bindings) d.capturedBindingIds
    with _ | env0 <;> rw [hc] at hexec
  · exact absurd (congrArg Prod.snd hexec) (by simp)
  · have hs' : s' = { s with
        heap := assocInsert s.nextCell (LoxValue.function d env0)
          (assocInsert s.nextCell (LoxValue.function d []) s.heap)
        nextCell := s.nextCell + 1
        bindings := assocInsert d.nameBindingId s.nextCell s.bindings } :=
      (congrArg Prod.fst hexec).symm
    subst hs'
    simp only [heapGet, assocInsert_lookup_self, Option.some.injEq] at hheap
    cases hheap
    exact capturedEnvOf_mem hc p hp

/-- C5 witness: at the concrete binding store holding variable 1 in cell 0,
declaring a function that captures binding id 1 stores a closure whose
captured environment shares cell 0, as read back through the theorem. -/
theorem c5_closures_capture_shared_cells_witness :
    (execStmt 1 c5state (RStatement.funDecl c5decl)).1.bindings.lookup
      (⟨1⟩ : BindingId) = some 0 :=
  c5_closures_capture_shared_cells.1 0 c5state
    ((execStmt 1 c5state (RStatement.funDecl c5decl)).1) c5decl [(⟨1⟩, 0)]
    rfl rfl (⟨1⟩, 0) (List.mem_singleton.mpr rfl)

/-- C6: for all operand expressions l and r, once l evaluates to a value v:
`l or r` yields v itself (state included, so r is never evaluated) when v is
truthy and otherwise continues exactly as evaluating r from l's final state;
`l and r` yields v itself when v is falsy and otherwise continues exactly as
evaluating r. The result is always one of the operand values, never a
coerced Boolean. -/
theorem c6_logical_operators_return_operand_values :
    ∀ (fuel : Nat) (s s' : InterpState) (l r : RExpression) (t : Token) (v : LoxValue),
      evalExpr fuel s l = (s', .ok v) →
      ((t.ty = TokenType.kwOr → v.isTruthy = true →
          evalExpr (fuel + 1) s (.binary l t r) = (s', .ok v)) ∧
       (t.ty = TokenType.kwOr → v.isTruthy = false →
          evalExpr (fuel + 1) s (.binary l t r) = evalExpr fuel s' r) ∧
       (t.ty = TokenType.kwAnd → v.isTruthy = false →
          evalExpr (fuel + 1) s (.binary l t r) = (s', .ok v)) ∧
       (t.ty = TokenType.kwAnd → v.isTruthy = true →
          evalExpr (fuel + 1) s (.binary l t r) = evalExpr fuel s' r)) := by
  intro fuel s s' l r t v h
  refine ⟨?_, ?_, ?_, ?_⟩ <;> intro ht hv <;>
    simp [evalExpr, h, Token.discriminant, ht, TokenType.discriminant, hv]

/-- C6 witness: `nil or 2` evaluates to the right operand's value 2 (the
left operand is Null, hence falsy), via the theorem at a concrete input. -/
theorem c6_logical_operators_return_operand_values_witness :
    evalExpr 11 .initial (.binary (.literal (.nullLit (opTok .kwNil "nil")))
        (opTok .kwOr "or") (litNum 2)) =
      evalExpr 10 .initial (litNum 2) :=
  (c6_logical_operators_return_operand_values 10 .initial .initial
    (.literal (.nullLit (opTok .kwNil "nil"))) (litNum 2) (opTok .kwOr "or")
    .null rfl).2.1 rfl rfl

/-- C7: for every function call, whatever the body's outcome — normal
fall-through, a runtime error, or an executed return — the active binding
store after `LoxCallable::call` equals the caller's binding store from
immediately before the body ran; and when the body runs to completion
without a return signal, the call evaluates to Null. -/
theorem c7_call_restores_bindings_and_defaults_to_null :
    ∀ (fuel : Nat) (s : InterpState) (defn : RFunctionDecl)
      (captured : List (BindingId × Nat)) (args : List LoxValue),
      (callFunction fuel s defn captured args).1.bindings = s.bindings ∧
      (∀ s2 : InterpState,
        execStmts fuel (mountCallFrame s defn captured args) defn.body = (s2, .ok ()) →
        callFunction (fuel + 1) s defn captured args =
          ({ s2 with bindings := s.bindings }, .ok .null)) := by
  intro fuel s defn captured args
  constructor
  · cases fuel with
    | zero => rfl
    | succ n =>
        simp only [callFunction]
        rcases hx : execStmts n (mountCallFrame s defn captured args) defn.body with ⟨s2, r⟩
        rcases r with e | _
        · rcases e with e | v | m | _ <;> rfl
        · rfl
  · intro s2 h
    simp only [callFunction, h]

/-- C7 witness: calling a parameterless function with an empty body from the
initial state restores the (empty) binding store and yields Null, via the
theorem at a concrete input. -/
theorem c7_call_restores_bindings_witness :
    callFunction 2 .initial c7decl [] [] =
      ({ (mountCallFrame .initial c7decl [] []) with bindings := [] }, .ok .null) :=
  (c7_call_restores_bindings_and_defaults_to_null 1 .initial c7decl [] []).2
    (mountCallFrame .initial c7decl [] []) rfl

/-- C8: once the callee and all arguments have evaluated, a call whose
callee value is not a Function yields the "not callable" runtime error; a
call to a Function whose argument count differs from its parameter count
(both below the parser-guaranteed 256 bound) yields the arity-mismatch
runtime error built from the expected and found counts, without running the
body (the resulting state is exactly the post-argument state); the body is
entered — via `LoxCallable::call` — exactly when the counts are equal; and
the arity-mismatch message names both counts. -/
theorem c8_call_requires_function_and_exact_arity :
    ∀ (fuel : Nat) (s s1 s2 : InterpState) (callee : RExpression) (cp : Token)
      (args : List RExpression) (v : LoxValue) (argVals : List LoxValue),
      evalExpr fuel s callee = (s1, .ok v) →
      evalArgs fuel s1 args = (s2, .ok argVals) →
      (((∀ d env, v ≠ .function d env) →
          evalExpr (fuel + 1) s (.call callee cp args) =
            (s2, .error (.runtime (RuntimeError.notCallable v)))) ∧
       (∀ d env, v = .function d env →
          d.parametersBindingIds.length < 256 → argVals.length < 256 →
          ((d.parametersBindingIds.length ≠ argVals.length →
              evalExpr (fuel + 1) s (.call callee cp args) =
                (s2, .error (.runtime (RuntimeError.arityMismatch
                  d.parametersBindingIds.length argVals.length)))) ∧
           (d.parametersBindingIds.length = argVals.length →
              evalExpr (fuel + 1) s (.call callee cp args) =
                callFunction fuel s2 d env argVals))) ∧
       (RuntimeError.arityMismatch 2 1).msg =
         "Expect 2 arguments, but got 1 arguments.") := by
  intro fuel s s1 s2 callee cp args v argVals h1 h2
  refine ⟨?_, ?_, rfl⟩
  · intro hnf
    cases v with
    | function d env => exact absurd rfl (hnf d env)
    | boolean b => simp [evalExpr, h1, h2]
    | null => simp [evalExpr, h1, h2]
    | str t => simp [evalExpr, h1, h2]
    | number q => simp [evalExpr, h1, h2]
  · intro d env hv hd ha
    subst hv
    constructor
    · intro hne
      simp only [evalExpr, h1, h2, Nat.mod_eq_of_lt hd, Nat.mod_eq_of_lt ha]
      rw [if_pos hne]
    · intro heq
      simp only [evalExpr, h1, h2, Nat.mod_eq_of_lt hd, Nat.mod_eq_of_lt ha]
      rw [if_neg (not_not_intro heq)]

/-- C8 witness: calling the Number value 1 (not a Function) yields the
"not callable" runtime error, via the theorem at a concrete input. -/
theorem c8_call_requires_function_witness :
    evalExpr 11 .initial (.call (litNum 1) (opTok .rightParen ")") []) =
      (.initial, .error (.runtime (RuntimeError.notCallable (.number ⟨1, 1⟩)))) :=
  (c8_call_requires_function_and_exact_arity 10 .initial .initial .initial
    (litNum 1) (opTok .rightParen ")") [] (.number ⟨1, 1⟩) [] rfl rfl).1
    (fun _ _ h => LoxValue.noConfusion h)

/-- C9: resolving `var x = x;` from a fresh resolver fails with the
uninitialized-reference error (the slot is reserved in Uninitialized status
before the initializer resolves, and the initializer's lookup finds it so);
a reference to a name declared in no scope instead fails with the distinct
undefined-variable error; and in general, resolving a variable reference
whose lookup succeeds with Uninitialized status is the uninitialized-
reference resolution failure. -/
theorem c9_self_referential_initializer_rejected :
    ((resolveProgram 50 [.varDecl (some (.varRef (opTok .identifier "x")))
        (opTok .identifier "x")]).2 = .error uninitializedReferenceMsg) ∧
    ((resolveProgram 50 [.exprStmt (.varRef (opTok .identifier "x"))]).2 =
        .error undefinedVariableMsg) ∧
    uninitializedReferenceMsg ≠ undefinedVariableMsg ∧
    (∀ (fuel : Nat) (env env' : REnv) (t : Token) (bid : BindingId),
       env.get t.lexeme = (.ok (bid, .uninitialized), env') →
       resolveExpression (fuel + 1) env (.varRef t) =
         (env', .error uninitializedReferenceMsg)) := by
  refine ⟨rfl, rfl, by decide, ?_⟩
  intro fuel env env' t bid h
  simp [resolveExpression, h]

/-- C9 witness: in the environment where `var x` has just reserved its slot
(still Uninitialized), resolving the reference `x` fails with the
uninitialized-reference error, via the theorem at a concrete input. -/
theorem c9_self_referential_initializer_witness :
    resolveExpression 1 c9env (.varRef (opTok .identifier "x")) =
      (c9env, .error uninitializedReferenceMsg) :=
  c9_self_referential_initializer_rejected.2.2.2 0 c9env c9env
    (opTok .identifier "x") ⟨0⟩ rfl

theorem lookup_cons_eq {α β : Type} [BEq α] (a k : α) (b : β) (es : List (α × β)) :
    List.lookup a ((k, b) :: es) = if a == k then some b else List.lookup a es := by
  cases h : a == k <;> simp [List.lookup, h]

theorem lookup_forall {α β : Type} [BEq α] (p : β → Prop) :
    ∀ (l : List (α × β)), (∀ kv ∈ l, p kv.2) → ∀ (a : α) (b : β),
      l.lookup a = some b → p b := by
  intro l
  induction l with
  | nil =>
      intro _ a b h
      exact Option.noConfusion h
  | cons hd tl ih =>
      intro hp a b h
      rcases hd with ⟨k, v⟩
      rw [lookup_cons_eq] at h
      by_cases he : a == k
      · rw [if_pos he] at h
        obtain rfl : v = b := Option.some.injEq v b ▸ h
        exact hp (k, v) (List.mem_cons_self _ _)
      · rw [if_neg he] at h
        exact ih (fun kv hkv => hp kv (List.mem_cons_of_mem _ hkv)) a b h

theorem mkWordToken_ty_ne_number (lexeme : String) (line : Nat) :
    (mkWordToken lexeme line).ty ≠ TokenType.number := by
  unfold mkWordToken
  split
  next ty h =>
    simpa using lookup_forall (fun ty => ty ≠ TokenType.number) keywordTable
      (by decide) lexeme ty h
  next => simp

theorem mkNumberToken_payload (lexeme : String) (line : Nat) :
    (mkNumberToken lexeme line).ty = TokenType.number →
    ∃ q, (mkNumberToken lexeme line).literal = some (.num q) ∧
         numParse (mkNumberToken lexeme line).lexeme = some q := by
  intro h
  unfold mkNumberToken at h ⊢
  rcases hp : numParse lexeme with _ | q <;> rw [hp] at h ⊢
  · exact absurd h (by simp)
  · exact ⟨q, rfl, rfl⟩

theorem singleTok_ty {c : Char} {rest : List Char} {line : Nat} {ty : TokenType}
    {t : Token} {r : List Char} {l : Nat} :
    singleTok c rest line ty = some (t, r, l) → t.ty = ty := by
  intro h
  simp only [singleTok, Option.some.injEq, Prod.mk.injEq] at h
  obtain ⟨rfl, -⟩ := h
  rfl

theorem singleTok_not_number {c : Char} {rest : List Char} {line : Nat}
    {ty : TokenType} {t : Token} {r : List Char} {l : Nat}
    (h : singleTok c rest line ty = some (t, r, l)) (hty : ty ≠ TokenType.number) :
    t.ty ≠ TokenType.number := by
  intro hc
  exact hty ((singleTok_ty h).symm.trans hc)

theorem twoCharTok_not_number {c : Char} {rest : List Char} {line : Nat} {c2 : Char}
    {tyTwo tyOne : TokenType} {t : Token} {r : List Char} {l : Nat}
    (h : twoCharTok c rest line c2 tyTwo tyOne = some (t, r, l))
    (h2 : tyTwo ≠ TokenType.number) (h1 : tyOne ≠ TokenType.number) :
    t.ty ≠ TokenType.number := by
  unfold twoCharTok at h
  split at h
  · split_ifs at h
    · simp only [Option.some.injEq, Prod.mk.injEq] at h
      obtain ⟨rfl, -⟩ := h
      exact h2
    · exact singleTok_not_number h h1
  · exact singleTok_not_number h h1

theorem scanStringTok_not_number {c : Char} {rest : List Char} {line : Nat}
    {t : Token} {r : List Char} {l : Nat}
    (h : scanStringTok c rest line = some (t, r, l)) : t.ty ≠ TokenType.number := by
  simp only [scanStringTok] at h
  split at h <;>
    (simp only [Option.some.injEq, Prod.mk.injEq] at h
     obtain ⟨rfl, -⟩ := h
     simp)

theorem scanNumberTok_payload {c : Char} {rest : List Char} {line : Nat}
    {t : Token} {r : List Char} {l : Nat} :
    scanNumberTok c rest line = some (t, r, l) → t.ty = TokenType.number →
    ∃ q, t.literal = some (.num q) ∧ numParse t.lexeme = some q := by
  intro h hn
  simp only [scanNumberTok, Option.some.injEq, Prod.mk.injEq] at h
  obtain ⟨rfl, -⟩ := h
  exact mkNumberToken_payload _ _ hn

theorem scanWordTok_ty {c : Char} {rest : List Char} {line : Nat}
    {t : Token} {r : List Char} {l : Nat} :
    scanWordTok c rest line = some (t, r, l) → t.ty ≠ TokenType.number := by
  intro h
  simp only [scanWordTok, Option.some.injEq, Prod.mk.injEq] at h
  obtain ⟨rfl, -⟩ := h
  exact mkWordToken_ty_ne_number _ _

theorem scanTriviaTok_not_number {c : Char} {rest : List Char} {line : Nat}
    {t : Token} {r : List Char} {l : Nat}
    (h : scanTriviaTok c rest line = some (t, r, l)) : t.ty ≠ TokenType.number := by
  simp only [scanTriviaTok, Option.some.injEq, Prod.mk.injEq] at h
  obtain ⟨rfl, -⟩ := h
  simp

theorem scanSimpleTok_number_payload {c : Char} {rest : List Char} {line : Nat}
    {t : Token} {r : List Char} {l : Nat}
    (h : scanSimpleTok c rest line = some (t, r, l)) (hn : t.ty = TokenType.number) :
    ∃ q, t.literal = some (.num q) ∧ numParse t.lexeme = some q := by
  unfold scanSimpleTok at h
  by_cases h1 : c = '('
  · rw [if_pos h1] at h
    exact absurd hn (singleTok_not_number h (by simp))
  · rw [if_neg h1] at h
    by_cases h2 : c = ')'
    · rw [if_pos h2] at h
      exact absurd hn (singleTok_not_number h (by simp))
    · rw [if_neg h2] at h
      by_cases h3 : c = '{'
      · rw [if_pos h3] at h
        exact absurd hn (singleTok_not_number h (by simp))
      · rw [if_neg h3] at h
        by_cases h4 : c = '}'
        · rw [if_pos h4] at h
          exact absurd hn (singleTok_not_number h (by simp))
        · rw [if_neg h4] at h
          by_cases h5 : c = ','
          · rw [if_pos h5] at h
            exact absurd hn (singleTok_not_number h (by simp))
          · rw [if_neg h5] at h
            by_cases h6 : c = '.'
            · rw [if_pos h6] at h
              exact absurd hn (singleTok_not_number h (by simp))
            · rw [if_neg h6] at h
              by_cases h7 : c = '-'
              · rw [if_pos h7] at h
                exact absurd hn (singleTok_not_number h (by simp))
              · rw [if_neg h7] at h
                by_cases h8 : c = '+'
                · rw [if_pos h8] at h
                  exact absurd hn (singleTok_not_number h (by simp))
                · rw [if_neg h8] at h
                  by_cases h9 : c = ';'
                  · rw [if_pos h9] at h
                    exact absurd hn (singleTok_not_number h (by simp))
                  · rw [if_neg h9] at h
                    by_cases h10 : c = '*'
                    · rw [if_pos h10] at h
                      exact absurd hn (singleTok_not_number h (by simp))
                    · rw [if_neg h10] at h
                      by_cases h11 : c = '!'
                      · rw [if_pos h11] at h
                        exact absurd hn (twoCharTok_not_number h (by simp) (by simp))
                      · rw [if_neg h11] at h
                        by_cases h12 : c = '='
                        · rw [if_pos h12] at h
                          exact absurd hn (twoCharTok_not_number h (by simp) (by simp))
                        · rw [if_neg h12] at h
                          by_cases h13 : c = '<'
                          · rw [if_pos h13] at h
                            exact absurd hn (twoCharTok_not_number h (by simp) (by simp))
                          · rw [if_neg h13] at h
                            by_cases h14 : c = '>'
                            · rw [if_pos h14] at h
                              exact absurd hn (twoCharTok_not_number h (by simp) (by simp))
                            · rw [if_neg h14] at h
                              by_cases h15 : c = '"'
                              · rw [if_pos h15] at h
                                exact absurd hn (scanStringTok_not_number h)
                              · rw [if_neg h15] at h
                                by_cases h16 : c.isDigit
                                · rw [if_pos h16] at h
                                  exact scanNumberTok_payload h hn
                                · rw [if_neg h16] at h
                                  by_cases h17 : isAlphaChar c
                                  · rw [if_pos h17] at h
                                    exact absurd hn (scanWordTok_ty h)
                                  · rw [if_neg h17] at h
                                    by_cases h18 : isTriviaChar c
                                    · rw [if_pos h18] at h
                                      exact absurd hn (scanTriviaTok_not_number h)
                                    · rw [if_neg h18] at h
                                      exact absurd hn (singleTok_not_number h (by simp))

theorem scanToken_number_payload :
    ∀ (fuel : Nat) (cs : List Char) (line : Nat) (t : Token) (rest : List Char)
      (line' : Nat),
      scanToken fuel cs line = some (t, rest, line') → t.ty = TokenType.number →
      ∃ q, t.literal = some (.num q) ∧ numParse t.lexeme = some q := by
  intro fuel
  induction fuel with
  | zero =>
      intro cs line t rest line' h
      exact Option.noConfusion h
  | succ n ih =>
      intro cs line t rest line' h hn
      cases cs with
      | nil => exact Option.noConfusion h
      | cons c cs0 =>
          unfold scanToken at h
          by_cases hc : c = '/'
          · rw [if_pos hc] at h
            split at h
            · exact ih _ _ _ _ _ h hn
            · exact absurd hn (singleTok_not_number h (by simp))
          · rw [if_neg hc] at h
            exact scanSimpleTok_number_payload h hn

theorem scanList_number_payload :
    ∀ (fuel : Nat) (cs : List Char) (line : Nat) (t : Token),
      t ∈ scanList fuel cs line → t.ty = TokenType.number →
      ∃ q, t.literal = some (.num q) ∧ numParse t.lexeme = some q := by
  intro fuel
  induction fuel with
  | zero =>
      intro cs line t ht
      simp [scanList] at ht
  | succ n ih =>
      intro cs line t ht hn
      simp only [scanList] at ht
      rcases hs : scanToken (n + 1) cs line with _ | ⟨t0, rest, line0⟩ <;> rw [hs] at ht
      · simp at ht
      · rcases List.mem_cons.mp ht with rfl | ht0
        · exact scanToken_number_payload (n + 1) cs line t rest line0 hs hn
        · exact ih rest line0 t ht0 hn

/-- C10: scanning a numeral consumes digits, then a `.` and fraction digits
only when a digit follows the dot (two-character lookahead): `1.5` scans to
a single Number token whose literal payload is the value 1.5, while `1.`
scans to a Number token for `1` followed by a separate Dot token; and every
Number token of any scan carries as payload exactly the numeric parse of its
own lexeme (the payload round-trips). -/
theorem c10_number_scanning_lookahead_and_round_trip :
    ((scanSource "1.5").map (fun t => (t.ty, t.lexeme, t.literal)) =
        [(.number, "1.5", some (.num ⟨15, 10⟩))]) ∧
    LoxNum.valEq ⟨15, 10⟩ ⟨3, 2⟩ = true ∧
    ((scanSource "1.").map (fun t => (t.ty, t.lexeme)) =
        [(.number, "1"), (.dot, ".")]) ∧
    (∀ (fuel : Nat) (cs : List Char) (line : Nat) (t : Token),
       t ∈ scanList fuel cs line → t.ty = TokenType.number →
       ∃ q, t.literal = some (.num q) ∧ numParse t.lexeme = some q) :=
  ⟨rfl, rfl, rfl, scanList_number_payload⟩

/-- C10 witness: the Number token scanned from `1.5` carries payload
`15/10`, which is the numeric parse of its lexeme `1.5`, via the theorem at
a concrete input. -/
theorem c10_number_scanning_round_trip_witness :
    ∃ q, (some (TokLiteral.num ⟨15, 10⟩) : Option TokLiteral) = some (.num q) ∧
         numParse "1.5" = some q :=
  c10_number_scanning_lookahead_and_round_trip.2.2.2 4 ("1.5".toList) 0
    ⟨.number, "1.5", some (.num ⟨15, 10⟩), 0⟩ (by decide) rfl
